import Mathlib

/-!
# Workload-domain reconciliation of terraform-provider-vcf

A shallow embedding of `internal/provider/resource_domain.go`.

Conventions of the embedding.

* The resource framework's untyped blocks (`map[string]interface{}`) are typed
  records holding the attributes of the schema; `reflect.DeepEqual` on two
  blocks is equality of the records.
* `diag.Diagnostics` is a list of diagnostics; the Go value `nil` is the empty
  list, so `diags != nil` reads `diags ≠ []`.
* Every function that talks to SDDC Manager receives the history `hist` of the
  remote calls made before it starts and returns the calls it issued itself, in
  order.  The answers of the remote side may depend on the whole history.
* A result `none` stands for a Go runtime panic (nil dereference or index out of
  range).
* Functions of the repository that live outside `resource_domain.go`
  (`createCluster`, `updateCluster`, `deleteCluster`, the converters of package
  `cluster`, `vcenter`, `network`, the helpers of `validation` and
  `resource_utils`) are parameters: the remote ones are fields of
  `SddcManagerClient`, the pure ones fields of `Helpers`.
-/

namespace Vcf

/-! ## Errors and diagnostics -/

/-- Errors: those raised by `fmt.Errorf` in `resource_domain.go`, and the errors
handed back by collaborators. -/
inductive Err where
  /-- an error returned by the SDK client or by a helper outside this file -/
  | remote (msg : String)
  /-- message `no vCenter Server instance found for domain %q` -/
  | noVcenter (domainId : String)
  /-- message `expecting old and new cluster list to have the same length` -/
  | lengthMismatch
  /-- message `cluster order has changed, updating hosts in cluster not supported` -/
  | clusterOrderChanged
  /-- message `no cluster configuration` -/
  | noClusterConfiguration
  deriving DecidableEq, Repr

inductive Severity where
  | error
  | warning
  deriving DecidableEq, Repr

structure Diagnostic where
  severity : Severity
  summary : Err
  deriving DecidableEq, Repr

abbrev Diagnostics := List Diagnostic

/-- The SDK function `diag.FromErr`: one diagnostic of severity error. -/
def fromErr (e : Err) : Diagnostics := [⟨Severity.error, e⟩]

/-- The SDK method `Diagnostics.HasError`: some diagnostic has severity error. -/
def hasError (diags : Diagnostics) : Bool :=
  diags.any (fun d => decide (d.severity = Severity.error))

/-! ## SDK models

Only the fields read or written by `resource_domain.go` are kept.  The request
bodies built by converters outside this file are kept whole as `body`. -/

structure VcenterSpec where
  body : String
  deriving DecidableEq, Repr

structure NsxTSpec where
  body : String
  deriving DecidableEq, Repr

structure ClusterSpec where
  body : String
  deriving DecidableEq, Repr

structure ClusterUpdateSpec where
  body : String
  deriving DecidableEq, Repr

structure ComputeSpec where
  clusterSpecs : List ClusterSpec
  deriving DecidableEq, Repr

structure DomainCreationSpec where
  domainName : String
  orgName : String
  vcenterSpec : Option VcenterSpec
  nsxTSpec : Option NsxTSpec
  computeSpec : Option ComputeSpec
  deriving DecidableEq, Repr

structure DomainUpdateSpec where
  markForDeletion : Bool
  name : String
  deriving DecidableEq, Repr

structure Validation where
  body : String
  deriving DecidableEq, Repr

structure Task where
  id : String
  deriving DecidableEq, Repr

structure VcenterReference where
  id : String
  fqdn : String
  deriving DecidableEq, Repr

/-- The field `ID` of `models.ClusterReference` is a `*string`. -/
structure ClusterReference where
  id : Option String
  deriving DecidableEq, Repr

structure Cluster where
  id : String
  name : String
  primaryDatastoreName : String
  primaryDatastoreType : String
  isDefault : Bool
  isStretched : Bool
  deriving DecidableEq, Repr

structure Domain where
  name : String
  status : String
  type : String
  ssoId : String
  ssoName : String
  isManagementSsoDomain : Bool
  vcenters : List VcenterReference
  clusters : List ClusterReference
  deriving DecidableEq, Repr

/-! ## Resource data -/

structure VmNic where
  id : String
  vdsName : String
  deriving DecidableEq, Repr

/-- One `host` block of a cluster. -/
structure HostState where
  id : String
  hostName : String
  ipAddress : String
  licenseKey : String
  vmnic : List VmNic
  deriving DecidableEq, Repr

/-- One `cluster` block of the domain.  `rest` holds the attributes that
`resource_domain.go` never names (vds, datastore blocks, geneve_vlan_id, ...). -/
structure ClusterState where
  id : String
  name : String
  host : List HostState
  primaryDatastoreName : String
  primaryDatastoreType : String
  isDefault : Bool
  isStretched : Bool
  rest : List (String × String)
  deriving DecidableEq, Repr

/-- The `vcenter` block.  `rest` holds the attributes the file never names. -/
structure VcenterConfig where
  id : String
  fqdn : String
  rest : List (String × String)
  deriving DecidableEq, Repr

/-- The `nsx_configuration` block, only ever handed to its converter. -/
structure NsxConfig where
  rest : List (String × String)
  deriving DecidableEq, Repr

/-- The `schema.ResourceData` of a domain: the resource id, the planned values
and, for the two attributes whose change is inspected, the prior values. -/
structure ResourceData where
  id : String
  name : String
  priorName : String
  orgName : String
  vcenter : List VcenterConfig
  nsxConfiguration : List NsxConfig
  cluster : List ClusterState
  priorCluster : List ClusterState
  status : String
  type : String
  ssoId : String
  ssoName : String
  isManagementSsoDomain : Bool
  deriving DecidableEq, Repr

/-- The call `data.HasChange("name")`. -/
def ResourceData.hasChangeName (data : ResourceData) : Bool :=
  decide (data.priorName ≠ data.name)

/-- The call `data.HasChange("cluster")`. -/
def ResourceData.hasChangeCluster (data : ResourceData) : Bool :=
  decide (data.priorCluster ≠ data.cluster)

/-! ## Remote calls -/

/-- The remote operations `resource_domain.go` can issue. -/
inductive Call where
  | validateDomainsOperations (spec : DomainCreationSpec)
  | createDomain (spec : DomainCreationSpec)
  | updateDomain (id : String) (spec : DomainUpdateSpec)
  | deleteDomain (id : String)
  | getDomain (id : String)
  | getClusters
  | waitForTaskComplete (taskId : String) (mustSucceedOrFatal : Bool)
  | getResourceIdAssociatedWithTask (taskId : String) (resourceType : String)
  | createCluster (domainId : String) (spec : ClusterSpec)
  | updateCluster (clusterId : String) (spec : ClusterUpdateSpec)
  | deleteCluster (clusterId : String)
  deriving DecidableEq, Repr

/-- The two response pointers returned next to the error by `CreateDomain`,
`UpdateDomain` and `DeleteDomain`; each carries a task when it is not nil. -/
structure Responses where
  first : Option Task
  second : Option Task
  deriving DecidableEq, Repr

/-- The remote side.  Every operation receives the history of the calls made
before it. -/
structure SddcManagerClient where
  validateDomainsOperations : List Call → DomainCreationSpec → Except Err Validation
  createDomain : List Call → DomainCreationSpec → Except Err Responses
  updateDomain : List Call → String → DomainUpdateSpec → Except Err Responses
  deleteDomain : List Call → String → Except Err Responses
  getDomain : List Call → String → Except Err Domain
  getClusters : List Call → Except Err (List Cluster)
  /-- function `WaitForTaskComplete`: `none` is a nil error -/
  waitForTaskComplete : List Call → String → Bool → Option Err
  getResourceIdAssociatedWithTask : List Call → String → String → Except Err String
  /-- function `createCluster` of `resource_cluster.go`: the new cluster id and the diagnostics -/
  createCluster : List Call → String → ClusterSpec → String × Diagnostics
  /-- function `updateCluster` of `resource_cluster.go` -/
  updateCluster : List Call → String → ClusterUpdateSpec → Diagnostics
  /-- function `deleteCluster` of `resource_cluster.go` -/
  deleteCluster : List Call → String → Diagnostics

/-- The pure helpers defined outside `resource_domain.go`. -/
structure Helpers where
  /-- function `cluster.TryConvertToClusterSpec` -/
  tryConvertToClusterSpec : ClusterState → Except Err ClusterSpec
  /-- function `vcenter.TryConvertToVcenterSpec` -/
  tryConvertToVcenterSpec : VcenterConfig → Except Err VcenterSpec
  /-- function `network.TryConvertToNsxSpec` -/
  tryConvertToNsxSpec : NsxConfig → Except Err NsxTSpec
  /-- function `cluster.SetExpansionOrContractionSpec`, applied to a fresh update spec,
  the old host list and the new host list -/
  setExpansionOrContractionSpec : List HostState → List HostState → Except Err ClusterUpdateSpec
  /-- function `resource_utils.CalculateAddedRemovedResources`, applied to the new and
  the old list; returns the added and the removed entries -/
  calculateAddedRemovedResources :
    List ClusterState → List ClusterState → List ClusterState × List ClusterState
  /-- function `validationUtils.IsEmpty`, applied to the value of the `cluster` attribute -/
  isEmpty : List ClusterState → Bool
  /-- function `validationUtils.HasValidationFailed` -/
  hasValidationFailed : Validation → Bool
  /-- function `validationUtils.ConvertVcfErrorToDiag` -/
  convertVcfErrorToDiag : Err → Diagnostics
  /-- function `validationUtils.ConvertValidationResultToDiag` -/
  convertValidationResultToDiag : Validation → Diagnostics

/-- What a function that only issues calls hands back. -/
structure Outcome where
  calls : List Call
  result : Option Diagnostics
  deriving DecidableEq, Repr

/-- What a function that also writes the resource data hands back. -/
structure Run where
  calls : List Call
  data : ResourceData
  result : Option Diagnostics
  deriving DecidableEq, Repr

/-! ## Spec construction -/

/-- The function `generateNsxSpecFromResourceData`.  `GetOk` reports an empty
list as not set. -/
def generateNsxSpecFromResourceData (h : Helpers) (data : ResourceData) :
    Except Err (Option NsxTSpec) :=
  if data.nsxConfiguration ≠ [] ∧ data.nsxConfiguration.length > 0 then
    match data.nsxConfiguration with
    | [] => .ok none
    | entry :: _ =>
      match h.tryConvertToNsxSpec entry with
      | .ok spec => .ok (some spec)
      | .error e => .error e
  else .ok none

/-- The function `generateVcenterSpecFromResourceData`. -/
def generateVcenterSpecFromResourceData (h : Helpers) (data : ResourceData) :
    Except Err (Option VcenterSpec) :=
  if data.vcenter ≠ [] ∧ data.vcenter.length > 0 then
    match data.vcenter with
    | [] => .ok none
    | entry :: _ =>
      match h.tryConvertToVcenterSpec entry with
      | .ok spec => .ok (some spec)
      | .error e => .error e
  else .ok none

/-- The loop of `generateComputeSpecFromResourceData`: convert the entries in
order, appending each spec, and stop at the first conversion error. -/
def convertClusterSpecs (h : Helpers) (acc : List ClusterSpec) :
    List ClusterState → Except Err (List ClusterSpec)
  | [] => .ok acc
  | entry :: entries =>
    match h.tryConvertToClusterSpec entry with
    | .error e => .error e
    | .ok spec => convertClusterSpecs h (acc ++ [spec]) entries

/-- The function `generateComputeSpecFromResourceData`. -/
def generateComputeSpecFromResourceData (h : Helpers) (data : ResourceData) :
    Except Err ComputeSpec :=
  if data.cluster ≠ [] ∧ ¬ h.isEmpty data.cluster then
    match convertClusterSpecs h [] data.cluster with
    | .error e => .error e
    | .ok specs => .ok ⟨specs⟩
  else .error Err.noClusterConfiguration

/-- The function `createDomainCreationSpec`. -/
def createDomainCreationSpec (h : Helpers) (data : ResourceData) :
    Except Err DomainCreationSpec :=
  let orgName := if data.orgName ≠ "" then data.orgName else ""
  match generateVcenterSpecFromResourceData h data with
  | .error e => .error e
  | .ok vcenterSpec =>
    match generateNsxSpecFromResourceData h data with
    | .error e => .error e
    | .ok nsxSpec =>
      match generateComputeSpecFromResourceData h data with
      | .error e => .error e
      | .ok computeSpec => .ok ⟨data.name, orgName, vcenterSpec, nsxSpec, some computeSpec⟩

/-- The function `createDomainUpdateSpec`. -/
def createDomainUpdateSpec (data : ResourceData) (markForDeletion : Bool) : DomainUpdateSpec :=
  if markForDeletion then ⟨true, ""⟩
  else if data.hasChangeName then ⟨false, data.name⟩
  else ⟨false, ""⟩

/-! ## Read -/

/-- The map `clusterIdsInTheCurrentDomain`, as the list of its keys; `none` when
a reference has a nil id, which the dereference turns into a panic. -/
def clusterIdsInTheCurrentDomain : List ClusterReference → Option (List String)
  | [] => some []
  | ref :: refs =>
    match ref.id with
    | none => none
    | some id =>
      match clusterIdsInTheCurrentDomain refs with
      | none => none
      | some ids => some (id :: ids)

/-- The inner loop of `readAndSetClustersDataToDomainResource` for one entry of
the state: every listed cluster of the domain with the entry's name overwrites
the observed fields. -/
def setClusterData (ids : List String) (domainCluster : ClusterState) :
    List Cluster → ClusterState
  | [] => domainCluster
  | clusterObj :: allClusters =>
    if ¬ (clusterObj.id ∈ ids) then setClusterData ids domainCluster allClusters
    else if domainCluster.name = clusterObj.name then
      setClusterData ids
        { domainCluster with
          id := clusterObj.id
          primaryDatastoreName := clusterObj.primaryDatastoreName
          primaryDatastoreType := clusterObj.primaryDatastoreType
          isDefault := clusterObj.isDefault
          isStretched := clusterObj.isStretched }
        allClusters
    else setClusterData ids domainCluster allClusters

/-- What `readAndSetClustersDataToDomainResource` hands back: its calls, the
data, and `none` for a panic, `some none` for a nil error. -/
structure ReadClusters where
  calls : List Call
  data : ResourceData
  result : Option (Option Err)
  deriving DecidableEq, Repr

/-- The function `readAndSetClustersDataToDomainResource`. -/
def readAndSetClustersDataToDomainResource (domainClusterRefs : List ClusterReference)
    (c : SddcManagerClient) (hist : List Call) (data : ResourceData) : ReadClusters :=
  match clusterIdsInTheCurrentDomain domainClusterRefs with
  | none => ⟨[], data, none⟩
  | some ids =>
    match c.getClusters hist with
    | .error e => ⟨[Call.getClusters], data, some (some e)⟩
    | .ok allClusters =>
      ⟨[Call.getClusters],
        { data with cluster := data.cluster.map (fun dc => setClusterData ids dc allClusters) },
        some none⟩

/-- The function `resourceDomainRead`. -/
def resourceDomainRead (c : SddcManagerClient) (hist : List Call) (data : ResourceData) : Run :=
  match c.getDomain hist data.id with
  | .error e => ⟨[Call.getDomain data.id], data, some (fromErr e)⟩
  | .ok domain =>
    let data1 : ResourceData :=
      { data with
        name := domain.name
        status := domain.status
        type := domain.type
        ssoId := domain.ssoId
        ssoName := domain.ssoName
        isManagementSsoDomain := domain.isManagementSsoDomain }
    if domain.vcenters.length < 1 then
      ⟨[Call.getDomain data.id], data1, some (fromErr (Err.noVcenter data.id))⟩
    else
      match data1.vcenter, domain.vcenters with
      | vcenterConfig :: others, vc :: _ =>
        let data2 : ResourceData :=
          { data1 with vcenter := { vcenterConfig with id := vc.id, fqdn := vc.fqdn } :: others }
        let r := readAndSetClustersDataToDomainResource domain.clusters c
          (hist ++ [Call.getDomain data.id]) data2
        match r.result with
        | none => ⟨Call.getDomain data.id :: r.calls, r.data, none⟩
        | some (some e) => ⟨Call.getDomain data.id :: r.calls, r.data, some (fromErr e)⟩
        | some none => ⟨Call.getDomain data.id :: r.calls, r.data, some []⟩
      | _, _ => ⟨[Call.getDomain data.id], data1, none⟩

/-! ## Create -/

/-- The function `resourceDomainCreate`. -/
def resourceDomainCreate (h : Helpers) (c : SddcManagerClient) (hist : List Call)
    (data : ResourceData) : Run :=
  match createDomainCreationSpec h data with
  | .error e => ⟨[], data, some (fromErr e)⟩
  | .ok domainCreationSpec =>
    let c1 := [Call.validateDomainsOperations domainCreationSpec]
    match c.validateDomainsOperations hist domainCreationSpec with
    | .error e => ⟨c1, data, some (h.convertVcfErrorToDiag e)⟩
    | .ok validateResponse =>
      if h.hasValidationFailed validateResponse then
        ⟨c1, data, some (h.convertValidationResultToDiag validateResponse)⟩
      else
        let c2 := c1 ++ [Call.createDomain domainCreationSpec]
        match c.createDomain (hist ++ c1) domainCreationSpec with
        | .error e => ⟨c2, data, some (h.convertVcfErrorToDiag e)⟩
        | .ok responses =>
          match responses.second with
          | none => ⟨c2, data, none⟩
          | some accepted =>
            let taskId := accepted.id
            let c3 := c2 ++ [Call.waitForTaskComplete taskId true]
            match c.waitForTaskComplete (hist ++ c2) taskId true with
            | some e => ⟨c3, data, some (fromErr e)⟩
            | none =>
              let c4 := c3 ++ [Call.getResourceIdAssociatedWithTask taskId "Domain"]
              match c.getResourceIdAssociatedWithTask (hist ++ c3) taskId "Domain" with
              | .error e => ⟨c4, data, some (fromErr e)⟩
              | .ok domainId =>
                let r := resourceDomainRead c (hist ++ c4) { data with id := domainId }
                ⟨c4 ++ r.calls, r.data, r.result⟩

/-! ## Update -/

/-- The first loop of `handleClusterAddRemoveToDomain`, over the added
clusters. -/
def addClusters (h : Helpers) (c : SddcManagerClient) (domainId : String) (hist : List Call) :
    List ClusterState → Outcome
  | [] => ⟨[], some []⟩
  | addedCluster :: others =>
    match h.tryConvertToClusterSpec addedCluster with
    | .error e => ⟨[], some (fromErr e)⟩
    | .ok clusterSpec =>
      let diags := (c.createCluster hist domainId clusterSpec).2
      if diags ≠ [] then ⟨[Call.createCluster domainId clusterSpec], some diags⟩
      else
        let r := addClusters h c domainId (hist ++ [Call.createCluster domainId clusterSpec]) others
        ⟨Call.createCluster domainId clusterSpec :: r.calls, r.result⟩

/-- The second loop of `handleClusterAddRemoveToDomain`, over the removed
clusters. -/
def removeClusters (c : SddcManagerClient) (hist : List Call) : List ClusterState → Outcome
  | [] => ⟨[], some []⟩
  | removedCluster :: others =>
    let clusterId := removedCluster.id
    let diags := c.deleteCluster hist clusterId
    if diags ≠ [] then ⟨[Call.deleteCluster clusterId], some diags⟩
    else
      let r := removeClusters c (hist ++ [Call.deleteCluster clusterId]) others
      ⟨Call.deleteCluster clusterId :: r.calls, r.result⟩

/-- The function `handleClusterAddRemoveToDomain`. -/
def handleClusterAddRemoveToDomain (h : Helpers) (c : SddcManagerClient) (hist : List Call)
    (domainId : String) (newClustersList oldClustersList : List ClusterState) : Outcome :=
  let addedClustersList := (h.calculateAddedRemovedResources newClustersList oldClustersList).1
  let removedClustersList := (h.calculateAddedRemovedResources newClustersList oldClustersList).2
  let r1 := addClusters h c domainId hist addedClustersList
  if r1.result ≠ some [] then r1
  else
    let r2 := removeClusters c (hist ++ r1.calls) removedClustersList
    ⟨r1.calls ++ r2.calls, r2.result⟩

/-- The loop of `handleClusterUpdateInDomain`: the new list is ranged over and
the old list is read at the same index, which panics once the old list is
exhausted. -/
def updateClusters (h : Helpers) (c : SddcManagerClient) (hist : List Call) :
    List ClusterState → List ClusterState → Outcome
  | [], _ => ⟨[], some []⟩
  | _ :: _, [] => ⟨[], none⟩
  | newClusterState :: news, oldClusterState :: olds =>
    if newClusterState = oldClusterState then updateClusters h c hist news olds
    else if newClusterState.id ≠ oldClusterState.id then
      ⟨[], some (fromErr Err.clusterOrderChanged)⟩
    else if oldClusterState.host = newClusterState.host then updateClusters h c hist news olds
    else
      match h.setExpansionOrContractionSpec oldClusterState.host newClusterState.host with
      | .error e => ⟨[], some (fromErr e)⟩
      | .ok populatedClusterUpdateSpec =>
        let call := Call.updateCluster newClusterState.id populatedClusterUpdateSpec
        let diags := c.updateCluster hist newClusterState.id populatedClusterUpdateSpec
        if diags ≠ [] then ⟨[call], some diags⟩
        else
          let r := updateClusters h c (hist ++ [call]) news olds
          ⟨call :: r.calls, r.result⟩

/-- The function `handleClusterUpdateInDomain`. -/
def handleClusterUpdateInDomain (h : Helpers) (c : SddcManagerClient) (hist : List Call)
    (newClustersStateList oldClustersStateList : List ClusterState) : Outcome :=
  if oldClustersStateList.length ≠ newClustersStateList.length then
    ⟨[], some (fromErr Err.lengthMismatch)⟩
  else updateClusters h c hist newClustersStateList oldClustersStateList

/-- The block `if data.HasChange("name")` of `resourceDomainUpdate`; a result
`some []` means the function goes on. -/
def updateDomainName (c : SddcManagerClient) (hist : List Call) (data : ResourceData) : Outcome :=
  if data.hasChangeName then
    let domainUpdateSpec := createDomainUpdateSpec data false
    let c1 := [Call.updateDomain data.id domainUpdateSpec]
    match c.updateDomain hist data.id domainUpdateSpec with
    | .error e => ⟨c1, some (fromErr e)⟩
    | .ok responses =>
      match responses.second with
      | none => ⟨c1, none⟩
      | some accepted =>
        let taskId := accepted.id
        match c.waitForTaskComplete (hist ++ c1) taskId false with
        | some e => ⟨c1 ++ [Call.waitForTaskComplete taskId false], some (fromErr e)⟩
        | none => ⟨c1 ++ [Call.waitForTaskComplete taskId false], some []⟩
  else ⟨[], some []⟩

/-- The block `if data.HasChange("cluster")` of `resourceDomainUpdate`; a result
`some []` means the function goes on. -/
def updateDomainClusters (h : Helpers) (c : SddcManagerClient) (hist : List Call)
    (data : ResourceData) : Outcome :=
  if data.hasChangeCluster then
    let newClustersList := data.cluster
    let oldClustersList := data.priorCluster
    if oldClustersList.length = newClustersList.length then
      handleClusterUpdateInDomain h c hist newClustersList oldClustersList
    else
      handleClusterAddRemoveToDomain h c hist data.id newClustersList oldClustersList
  else ⟨[], some []⟩

/-- The function `resourceDomainUpdate`. -/
def resourceDomainUpdate (h : Helpers) (c : SddcManagerClient) (hist : List Call)
    (data : ResourceData) : Run :=
  let r1 := updateDomainName c hist data
  if r1.result ≠ some [] then ⟨r1.calls, data, r1.result⟩
  else
    let r2 := updateDomainClusters h c (hist ++ r1.calls) data
    if r2.result ≠ some [] then ⟨r1.calls ++ r2.calls, data, r2.result⟩
    else
      let r3 := resourceDomainRead c (hist ++ r1.calls ++ r2.calls) data
      ⟨r1.calls ++ r2.calls ++ r3.calls, r3.data, r3.result⟩

/-! ## Delete -/

/-- The function `resourceDomainDelete`. -/
def resourceDomainDelete (c : SddcManagerClient) (hist : List Call) (data : ResourceData) : Run :=
  let markForDeleteUpdateSpec := createDomainUpdateSpec data true
  let c1 := [Call.updateDomain data.id markForDeleteUpdateSpec]
  match c.updateDomain hist data.id markForDeleteUpdateSpec with
  | .error e => ⟨c1, data, some (fromErr e)⟩
  | .ok updateResponses =>
    match updateResponses.first with
    | none => ⟨c1, data, none⟩
    | some acceptedUpdateTask =>
      let taskId := acceptedUpdateTask.id
      let c2 := c1 ++ [Call.waitForTaskComplete taskId false]
      match c.waitForTaskComplete (hist ++ c1) taskId false with
      | some e => ⟨c2, data, some (fromErr e)⟩
      | none =>
        let c3 := c2 ++ [Call.deleteDomain data.id]
        match c.deleteDomain (hist ++ c2) data.id with
        | .error e => ⟨c3, data, some (fromErr e)⟩
        | .ok deleteResponses =>
          let taskId1 :=
            match deleteResponses.first with
            | some acceptedDeleteTask => acceptedDeleteTask.id
            | none => taskId
          let taskId2 :=
            match deleteResponses.second with
            | some acceptedDeleteTask2 => acceptedDeleteTask2.id
            | none => taskId1
          let c4 := c3 ++ [Call.waitForTaskComplete taskId2 true]
          match c.waitForTaskComplete (hist ++ c3) taskId2 true with
          | some e => ⟨c4, data, some (fromErr e)⟩
          | none => ⟨c4, data, some []⟩

/-! ## Predicates on calls and outcomes -/

def Call.isCreateDomain : Call → Bool
  | .createDomain _ => true
  | _ => false

def Call.isDeleteDomain : Call → Bool
  | .deleteDomain _ => true
  | _ => false

def Call.isWaitForTaskComplete : Call → Bool
  | .waitForTaskComplete _ _ => true
  | _ => false

def Call.isCreateCluster : Call → Bool
  | .createCluster _ _ => true
  | _ => false

def Call.isUpdateCluster : Call → Bool
  | .updateCluster _ _ => true
  | _ => false

def Call.isDeleteCluster : Call → Bool
  | .deleteCluster _ => true
  | _ => false

/-- A call that changes the remote side. -/
def Call.isMutation : Call → Bool
  | .createDomain _ => true
  | .updateDomain _ _ => true
  | .deleteDomain _ => true
  | .createCluster _ _ => true
  | .updateCluster _ _ => true
  | .deleteCluster _ => true
  | _ => false

/-- The three ways `resourceDomainCreate` stops before it submits: the spec
cannot be built, the validation request errs, or the validation has failed. -/
def failsBeforeSubmission (h : Helpers) (c : SddcManagerClient) (hist : List Call)
    (data : ResourceData) : Prop :=
  (∃ e, createDomainCreationSpec h data = .error e) ∨
  (∃ spec, createDomainCreationSpec h data = .ok spec ∧
    ((∃ e, c.validateDomainsOperations hist spec = .error e) ∨
     (∃ v, c.validateDomainsOperations hist spec = .ok v ∧ h.hasValidationFailed v = true)))

/-- The diagnostics that belong to a failure before submission. -/
def preSubmissionDiagnostics (h : Helpers) (c : SddcManagerClient) (hist : List Call)
    (data : ResourceData) : Diagnostics :=
  match createDomainCreationSpec h data with
  | .error e => fromErr e
  | .ok spec =>
    match c.validateDomainsOperations hist spec with
    | .error e => h.convertVcfErrorToDiag e
    | .ok v => h.convertValidationResultToDiag v

/-- The two ways the mark-for-deletion phase of `resourceDomainDelete` fails
with error `e`: the `UpdateDomain` request errs, or the wait on its task errs. -/
def markForDeletionFails (c : SddcManagerClient) (hist : List Call) (data : ResourceData)
    (e : Err) : Prop :=
  c.updateDomain hist data.id (createDomainUpdateSpec data true) = .error e ∨
  ∃ first second,
    c.updateDomain hist data.id (createDomainUpdateSpec data true) = .ok ⟨some first, second⟩ ∧
    c.waitForTaskComplete (hist ++ [Call.updateDomain data.id (createDomainUpdateSpec data true)])
      first.id false = some e

/-- The calls an expand/contract update is expected to make: for each position
whose host lists differ, in position order, one `updateCluster` addressed to
the cluster id of that position and carrying the spec built from its old and
new host lists; nothing for the other positions. -/
def hostUpdateCalls (h : Helpers) (news olds : List ClusterState) : List Call :=
  (news.zip olds).filterMap (fun p =>
    if p.2.host = p.1.host then none
    else
      match h.setExpansionOrContractionSpec p.2.host p.1.host with
      | .ok spec => some (Call.updateCluster p.1.id spec)
      | .error _ => none)

/-- The overwrite of the observed fields of a state entry by a listed
cluster: id, primary datastore name and type, default and stretched flags. -/
def overwriteObserved (domainCluster : ClusterState) (clusterObj : Cluster) : ClusterState :=
  { domainCluster with
    id := clusterObj.id
    primaryDatastoreName := clusterObj.primaryDatastoreName
    primaryDatastoreType := clusterObj.primaryDatastoreType
    isDefault := clusterObj.isDefault
    isStretched := clusterObj.isStretched }

/-- The last cluster of the listing whose id is among the domain's cluster
references and whose name is `name`, if there is one. -/
def lastMatch (ids : List String) (name : String) (allClusters : List Cluster) :
    Option Cluster :=
  (allClusters.filter (fun cl => decide (cl.id ∈ ids) && decide (name = cl.name))).getLast?

/-- What a read is expected to make of one state entry: the entry with its
observed fields overwritten from its last match in the listing, or the entry
itself when it has no match. -/
def readBack (ids : List String) (allClusters : List Cluster) (domainCluster : ClusterState) :
    ClusterState :=
  match lastMatch ids domainCluster.name allClusters with
  | some clusterObj => overwriteObserved domainCluster clusterObj
  | none => domainCluster

/-- The update runs `step` as its cluster step: the calls of the update are those
of the name block, then those of `step`, then, when `step` returns nil, those
of the read made on the history extended by both; when `step` does not return
nil its result is the result of the update and the data is unchanged. -/
def RunsClusterStep (h : Helpers) (c : SddcManagerClient) (hist : List Call)
    (data : ResourceData) (step : Outcome) : Prop :=
  (step.result ≠ some [] →
    resourceDomainUpdate h c hist data =
      ⟨(updateDomainName c hist data).calls ++ step.calls, data, step.result⟩) ∧
  (step.result = some [] →
    resourceDomainUpdate h c hist data =
      ⟨(updateDomainName c hist data).calls ++ step.calls ++
          (resourceDomainRead c (hist ++ (updateDomainName c hist data).calls ++ step.calls)
            data).calls,
        (resourceDomainRead c (hist ++ (updateDomainName c hist data).calls ++ step.calls)
          data).data,
        (resourceDomainRead c (hist ++ (updateDomainName c hist data).calls ++ step.calls)
          data).result⟩)

/-! ## Concrete inputs -/

/-- Helpers that always convert, diff by membership and read the validation
status off the body. -/
def sampleHelpers : Helpers where
  tryConvertToClusterSpec := fun cl => .ok ⟨cl.name⟩
  tryConvertToVcenterSpec := fun v => .ok ⟨v.fqdn⟩
  tryConvertToNsxSpec := fun _ => .ok ⟨"nsx"⟩
  setExpansionOrContractionSpec := fun olds news =>
    .ok ⟨String.intercalate "," (olds.map (·.id)) ++ " -> " ++
      String.intercalate "," (news.map (·.id))⟩
  calculateAddedRemovedResources := fun news olds =>
    (news.filter (fun n => ¬ (n ∈ olds)), olds.filter (fun o => ¬ (o ∈ news)))
  isEmpty := fun l => l.isEmpty
  hasValidationFailed := fun v => v.body == "FAILED"
  convertVcfErrorToDiag := fromErr
  convertValidationResultToDiag := fun v => [⟨Severity.error, Err.remote v.body⟩]

def sampleDomain : Domain where
  name := "wld"
  status := "ACTIVE"
  type := "VI"
  ssoId := "sso"
  ssoName := "vsphere.local"
  isManagementSsoDomain := true
  vcenters := [⟨"vc-1", "vc.local"⟩]
  clusters := [⟨some "cl-1"⟩]

/-- A remote side on which every operation succeeds. -/
def sampleClient : SddcManagerClient where
  validateDomainsOperations := fun _ _ => .ok ⟨"SUCCEEDED"⟩
  createDomain := fun _ _ => .ok ⟨none, some ⟨"task-create"⟩⟩
  updateDomain := fun _ _ _ => .ok ⟨some ⟨"task-update"⟩, some ⟨"task-update"⟩⟩
  deleteDomain := fun _ _ => .ok ⟨none, some ⟨"task-delete"⟩⟩
  getDomain := fun _ _ => .ok sampleDomain
  getClusters := fun _ => .ok [⟨"cl-1", "c1", "ds", "VSAN", true, false⟩]
  waitForTaskComplete := fun _ _ _ => none
  getResourceIdAssociatedWithTask := fun _ _ _ => .ok "domain-1"
  createCluster := fun _ _ _ => ("cl-new", [])
  updateCluster := fun _ _ _ => []
  deleteCluster := fun _ _ => []

/-- A remote side whose validation endpoint reports a failed validation. -/
def rejectingClient : SddcManagerClient :=
  { sampleClient with validateDomainsOperations := fun _ _ => .ok ⟨"FAILED"⟩ }

/-- A remote side on which every task fails. -/
def failingTaskClient : SddcManagerClient :=
  { sampleClient with waitForTaskComplete := fun _ _ _ => some (Err.remote "task failed") }

/-- A remote side whose `DeleteDomain` hands back both responses. -/
def bothResponsesClient : SddcManagerClient :=
  { sampleClient with
    deleteDomain := fun _ _ => .ok ⟨some ⟨"task-delete-1"⟩, some ⟨"task-delete-2"⟩⟩ }

/-- A remote side on which every cluster operation fails; the diagnostic names
the request body for a creation and the cluster id for an update or deletion. -/
def failingClusterClient : SddcManagerClient :=
  { sampleClient with
    createCluster := fun _ _ spec => ("", [⟨Severity.error, Err.remote spec.body⟩])
    updateCluster := fun _ clusterId _ => [⟨Severity.error, Err.remote clusterId⟩]
    deleteCluster := fun _ clusterId => [⟨Severity.error, Err.remote clusterId⟩] }

/-- A remote side whose domain has no vCenter. -/
def noVcenterClient : SddcManagerClient :=
  { sampleClient with getDomain := fun _ _ => .ok { sampleDomain with vcenters := [] } }

/-- A remote side whose `DeleteDomain` succeeds with neither response. -/
def noDeleteTaskClient : SddcManagerClient :=
  { sampleClient with deleteDomain := fun _ _ => .ok ⟨none, none⟩ }

def sampleHost (id : String) : HostState := ⟨id, "", "", "key", []⟩

def sampleCluster (id name : String) (hosts : List String) : ClusterState :=
  ⟨id, name, hosts.map sampleHost, "", "", false, false, []⟩

def sampleData : ResourceData where
  id := ""
  name := "wld"
  priorName := "wld"
  orgName := "org"
  vcenter := [⟨"", "vc.local", []⟩]
  nsxConfiguration := []
  cluster := [sampleCluster "" "c1" ["h1", "h2", "h3"]]
  priorCluster := [sampleCluster "" "c1" ["h1", "h2", "h3"]]
  status := ""
  type := ""
  ssoId := ""
  ssoName := ""
  isManagementSsoDomain := false

/-- An update that adds host `h4` to the only cluster. -/
def expandData : ResourceData :=
  { sampleData with
    id := "domain-1"
    cluster := [sampleCluster "cl-1" "c1" ["h1", "h2", "h3", "h4"]]
    priorCluster := [sampleCluster "cl-1" "c1" ["h1", "h2", "h3"]] }

/-- An update from three clusters to four. -/
def addClusterData : ResourceData :=
  { sampleData with
    id := "domain-1"
    cluster := [sampleCluster "cl-1" "c1" ["h1"], sampleCluster "cl-2" "c2" ["h2"],
      sampleCluster "cl-3" "c3" ["h3"], sampleCluster "" "c4" ["h4"]]
    priorCluster := [sampleCluster "cl-1" "c1" ["h1"], sampleCluster "cl-2" "c2" ["h2"],
      sampleCluster "cl-3" "c3" ["h3"]] }

/-- An update that adds one host to each of two clusters. -/
def twoExpandData : ResourceData :=
  { sampleData with
    id := "domain-1"
    cluster := [sampleCluster "cl-1" "c1" ["h1", "h3"], sampleCluster "cl-2" "c2" ["h2", "h4"]]
    priorCluster := [sampleCluster "cl-1" "c1" ["h1"], sampleCluster "cl-2" "c2" ["h2"]] }

/-- The sample state with another host list in its only cluster. -/
def otherHostsData : ResourceData :=
  { sampleData with cluster := [sampleCluster "" "c1" ["h9"]] }

/-- The sample state with stale observed fields in its only cluster. -/
def staleData : ResourceData :=
  { sampleData with
    cluster := [{ sampleCluster "stale" "c1" ["h1", "h2", "h3"] with
      primaryDatastoreName := "old-ds", isStretched := true }] }

/-- Helpers whose vCenter converter rejects every block. -/
def rejectingVcenterHelpers : Helpers :=
  { sampleHelpers with tryConvertToVcenterSpec := fun _ => .error (Err.remote "invalid vcenter") }

/-- The sample desired state without the `vcenter` block. -/
def noVcenterData : ResourceData :=
  { sampleData with vcenter := [] }

/-- Helpers whose cluster converter rejects every block. -/
def rejectingClusterHelpers : Helpers :=
  { sampleHelpers with
    tryConvertToClusterSpec := fun _ => .error (Err.remote "invalid cluster") }

/-- Helpers whose vCenter converter and cluster converter reject every block,
each with its own error. -/
def rejectingAllHelpers : Helpers :=
  { sampleHelpers with
    tryConvertToVcenterSpec := fun _ => .error (Err.remote "invalid vcenter")
    tryConvertToClusterSpec := fun _ => .error (Err.remote "invalid cluster") }

/-- An update from two clusters to three: cluster `c2` goes, `c4` and `c5` come. -/
def replaceClustersData : ResourceData :=
  { sampleData with
    id := "domain-1"
    cluster := [sampleCluster "cl-1" "c1" ["h1"], sampleCluster "" "c4" ["h4"],
      sampleCluster "" "c5" ["h5"]]
    priorCluster := [sampleCluster "cl-1" "c1" ["h1"], sampleCluster "cl-2" "c2" ["h2"]] }

def sampleSpec : DomainCreationSpec :=
  ⟨"wld", "org", some ⟨"vc.local"⟩, none, some ⟨[⟨"c1"⟩]⟩⟩

/-! ## Create: theorems -/

/-- C1: when `resourceDomainCreate` fails before submission (spec construction
error, validation request error, or failed validation result) it returns the
diagnostics of that failure, issues no call but possibly the validation, so
never calls `CreateDomain` and awaits no task, and leaves the resource data,
the id included, as it was.  The diagnostics hold an error as soon as the two
converters of package `validation` yield one for every error and for every
failed validation. -/
theorem resourceDomainCreate_fails_before_submission (h : Helpers) (c : SddcManagerClient)
    (hist : List Call) (data : ResourceData) (hfail : failsBeforeSubmission h c hist data) :
    (resourceDomainCreate h c hist data).result
        = some (preSubmissionDiagnostics h c hist data) ∧
      (∀ call ∈ (resourceDomainCreate h c hist data).calls,
        ∃ spec, call = Call.validateDomainsOperations spec) ∧
      (∀ call ∈ (resourceDomainCreate h c hist data).calls, call.isCreateDomain = false) ∧
      (∀ call ∈ (resourceDomainCreate h c hist data).calls,
        call.isWaitForTaskComplete = false) ∧
      (resourceDomainCreate h c hist data).data = data ∧
      ((∀ e, hasError (h.convertVcfErrorToDiag e) = true) →
        (∀ v, h.hasValidationFailed v = true →
          hasError (h.convertValidationResultToDiag v) = true) →
        hasError (preSubmissionDiagnostics h c hist data) = true) := by
  rcases hfail with ⟨e, he⟩ | ⟨spec, hspec, ⟨e, he⟩ | ⟨v, hv, hbad⟩⟩
  · simp [resourceDomainCreate, preSubmissionDiagnostics, he, hasError, fromErr]
  · have hdiags : preSubmissionDiagnostics h c hist data = h.convertVcfErrorToDiag e := by
      simp [preSubmissionDiagnostics, hspec, he]
    refine ⟨?_, ?_, ?_, ?_, ?_, fun hvcf _ => by rw [hdiags]; exact hvcf e⟩ <;>
      simp [resourceDomainCreate, hdiags, hspec, he, Call.isCreateDomain,
        Call.isWaitForTaskComplete]
  · have hdiags : preSubmissionDiagnostics h c hist data
        = h.convertValidationResultToDiag v := by
      simp [preSubmissionDiagnostics, hspec, hv]
    refine ⟨?_, ?_, ?_, ?_, ?_, fun _ hres => by rw [hdiags]; exact hres v hbad⟩ <;>
      simp [resourceDomainCreate, hdiags, hspec, hv, hbad, Call.isCreateDomain,
        Call.isWaitForTaskComplete]

/-- The creation spec built from the sample desired state. -/
theorem createDomainCreationSpec_sample :
    createDomainCreationSpec sampleHelpers sampleData = .ok sampleSpec := by
  simp [createDomainCreationSpec, generateVcenterSpecFromResourceData,
    generateNsxSpecFromResourceData, generateComputeSpecFromResourceData, convertClusterSpecs,
    sampleHelpers, sampleData, sampleSpec, sampleCluster]

/-- Witness of C1: a failed validation result on a well-formed desired state. -/
theorem resourceDomainCreate_fails_before_submission_witness :
    failsBeforeSubmission sampleHelpers rejectingClient [] sampleData ∧
      (resourceDomainCreate sampleHelpers rejectingClient [] sampleData).result
        = some [⟨Severity.error, Err.remote "FAILED"⟩] ∧
      (∀ call ∈ (resourceDomainCreate sampleHelpers rejectingClient [] sampleData).calls,
        call.isCreateDomain = false) ∧
      (∀ call ∈ (resourceDomainCreate sampleHelpers rejectingClient [] sampleData).calls,
        call.isWaitForTaskComplete = false) ∧
      (resourceDomainCreate sampleHelpers rejectingClient [] sampleData).data = sampleData := by
  have hfail : failsBeforeSubmission sampleHelpers rejectingClient [] sampleData :=
    Or.inr ⟨sampleSpec, createDomainCreationSpec_sample,
      Or.inr ⟨⟨"FAILED"⟩, rfl, by simp [sampleHelpers]⟩⟩
  have hall := resourceDomainCreate_fails_before_submission sampleHelpers rejectingClient []
    sampleData hfail
  refine ⟨hfail, ?_, hall.2.2.1, hall.2.2.2.1, hall.2.2.2.2.1⟩
  rw [hall.1]
  decide

/-- The cluster read-back never changes the resource id. -/
theorem readAndSetClustersDataToDomainResource_id (refs : List ClusterReference)
    (c : SddcManagerClient) (hist : List Call) (data : ResourceData) :
    (readAndSetClustersDataToDomainResource refs c hist data).data.id = data.id := by
  unfold readAndSetClustersDataToDomainResource
  split
  · rfl
  · split <;> rfl

/-- A read never changes the resource id. -/
theorem resourceDomainRead_id (c : SddcManagerClient) (hist : List Call) (data : ResourceData) :
    (resourceDomainRead c hist data).data.id = data.id := by
  unfold resourceDomainRead
  split
  · rfl
  · split
    · rfl
    · dsimp only
      split
      · split <;> exact readAndSetClustersDataToDomainResource_id _ _ _ _
      · rfl

/-- A read starts by fetching the domain named by the resource id. -/
theorem resourceDomainRead_head (c : SddcManagerClient) (hist : List Call) (data : ResourceData) :
    (resourceDomainRead c hist data).calls.head? = some (Call.getDomain data.id) := by
  unfold resourceDomainRead
  split
  · rfl
  · split
    · rfl
    · dsimp only
      split
      · split <;> rfl
      · rfl

/-- C2: once the creation spec is built, validated and accepted by `CreateDomain`
with task `accepted`, the calls made by `resourceDomainCreate` are, in order: the
validation of the spec, `CreateDomain` with the same spec, the wait on that
task with `mustSucceedOrFatal = true`, the resolution of the id of kind
`Domain` from the same task, and then the calls of `resourceDomainRead` run on
the data whose id is the resolved id.  When the wait fails the run ends after
the wait, and when the resolution fails it ends after the resolution; in both
cases the data, the id included, is unchanged and no read is made. -/
theorem resourceDomainCreate_order (h : Helpers) (c : SddcManagerClient) (hist : List Call)
    (data : ResourceData) (spec : DomainCreationSpec) (v : Validation) (first : Option Task)
    (accepted : Task)
    (hspec : createDomainCreationSpec h data = .ok spec)
    (hval : c.validateDomainsOperations hist spec = .ok v)
    (hpass : h.hasValidationFailed v = false)
    (hcreate : c.createDomain (hist ++ [Call.validateDomainsOperations spec]) spec
      = .ok ⟨first, some accepted⟩) :
    (∀ e, c.waitForTaskComplete
          (hist ++ [Call.validateDomainsOperations spec, Call.createDomain spec])
          accepted.id true = some e →
        resourceDomainCreate h c hist data =
          ⟨[Call.validateDomainsOperations spec, Call.createDomain spec,
              Call.waitForTaskComplete accepted.id true],
            data, some (fromErr e)⟩) ∧
    (c.waitForTaskComplete
          (hist ++ [Call.validateDomainsOperations spec, Call.createDomain spec])
          accepted.id true = none →
      (∀ e, c.getResourceIdAssociatedWithTask
            (hist ++ [Call.validateDomainsOperations spec, Call.createDomain spec,
              Call.waitForTaskComplete accepted.id true]) accepted.id "Domain" = .error e →
          resourceDomainCreate h c hist data =
            ⟨[Call.validateDomainsOperations spec, Call.createDomain spec,
                Call.waitForTaskComplete accepted.id true,
                Call.getResourceIdAssociatedWithTask accepted.id "Domain"],
              data, some (fromErr e)⟩) ∧
      (∀ domainId, c.getResourceIdAssociatedWithTask
            (hist ++ [Call.validateDomainsOperations spec, Call.createDomain spec,
              Call.waitForTaskComplete accepted.id true]) accepted.id "Domain" = .ok domainId →
          (resourceDomainCreate h c hist data).calls =
            [Call.validateDomainsOperations spec, Call.createDomain spec,
              Call.waitForTaskComplete accepted.id true,
              Call.getResourceIdAssociatedWithTask accepted.id "Domain"] ++
            (resourceDomainRead c
              (hist ++ [Call.validateDomainsOperations spec, Call.createDomain spec,
                Call.waitForTaskComplete accepted.id true,
                Call.getResourceIdAssociatedWithTask accepted.id "Domain"])
              { data with id := domainId }).calls ∧
          (resourceDomainCreate h c hist data).calls.get? 4 = some (Call.getDomain domainId) ∧
          (resourceDomainCreate h c hist data).data.id = domainId ∧
          (resourceDomainCreate h c hist data).data =
            (resourceDomainRead c
              (hist ++ [Call.validateDomainsOperations spec, Call.createDomain spec,
                Call.waitForTaskComplete accepted.id true,
                Call.getResourceIdAssociatedWithTask accepted.id "Domain"])
              { data with id := domainId }).data ∧
          (resourceDomainCreate h c hist data).result =
            (resourceDomainRead c
              (hist ++ [Call.validateDomainsOperations spec, Call.createDomain spec,
                Call.waitForTaskComplete accepted.id true,
                Call.getResourceIdAssociatedWithTask accepted.id "Domain"])
              { data with id := domainId }).result)) := by
  refine ⟨?_, ?_⟩
  · intro e he
    simp [resourceDomainCreate, hspec, hval, hpass, hcreate, he]
  · intro hwait
    refine ⟨?_, ?_⟩
    · intro e he
      simp [resourceDomainCreate, hspec, hval, hpass, hcreate, hwait, he]
    · intro domainId hid
      have hrun : resourceDomainCreate h c hist data =
          ⟨[Call.validateDomainsOperations spec, Call.createDomain spec,
              Call.waitForTaskComplete accepted.id true,
              Call.getResourceIdAssociatedWithTask accepted.id "Domain"] ++
            (resourceDomainRead c
              (hist ++ [Call.validateDomainsOperations spec, Call.createDomain spec,
                Call.waitForTaskComplete accepted.id true,
                Call.getResourceIdAssociatedWithTask accepted.id "Domain"])
              { data with id := domainId }).calls,
            (resourceDomainRead c
              (hist ++ [Call.validateDomainsOperations spec, Call.createDomain spec,
                Call.waitForTaskComplete accepted.id true,
                Call.getResourceIdAssociatedWithTask accepted.id "Domain"])
              { data with id := domainId }).data,
            (resourceDomainRead c
              (hist ++ [Call.validateDomainsOperations spec, Call.createDomain spec,
                Call.waitForTaskComplete accepted.id true,
                Call.getResourceIdAssociatedWithTask accepted.id "Domain"])
              { data with id := domainId }).result⟩ := by
        simp [resourceDomainCreate, hspec, hval, hpass, hcreate, hwait, hid]
      rw [hrun]
      refine ⟨rfl, ?_, ?_, rfl, rfl⟩
      · have hhead := resourceDomainRead_head c
          (hist ++ [Call.validateDomainsOperations spec, Call.createDomain spec,
            Call.waitForTaskComplete accepted.id true,
            Call.getResourceIdAssociatedWithTask accepted.id "Domain"])
          { data with id := domainId }
        cases hcalls : (resourceDomainRead c
          (hist ++ [Call.validateDomainsOperations spec, Call.createDomain spec,
            Call.waitForTaskComplete accepted.id true,
            Call.getResourceIdAssociatedWithTask accepted.id "Domain"])
          { data with id := domainId }).calls with
        | nil => rw [hcalls] at hhead; simp at hhead
        | cons x xs => rw [hcalls] at hhead; simp at hhead; simp [hhead]
      · exact resourceDomainRead_id c _ _

/-- Witness of C2: a create on which every step succeeds. -/
theorem resourceDomainCreate_order_witness :
    (resourceDomainCreate sampleHelpers sampleClient [] sampleData).calls =
        [Call.validateDomainsOperations sampleSpec, Call.createDomain sampleSpec,
          Call.waitForTaskComplete "task-create" true,
          Call.getResourceIdAssociatedWithTask "task-create" "Domain",
          Call.getDomain "domain-1", Call.getClusters] ∧
      (resourceDomainCreate sampleHelpers sampleClient [] sampleData).data.id = "domain-1" := by
  have hall := resourceDomainCreate_order sampleHelpers sampleClient [] sampleData sampleSpec
    ⟨"SUCCEEDED"⟩ none ⟨"task-create"⟩ createDomainCreationSpec_sample rfl
    (by simp [sampleHelpers]) rfl
  have hok := (hall.2 rfl).2 "domain-1" rfl
  refine ⟨?_, hok.2.2.1⟩
  rw [hok.1]
  simp [resourceDomainRead, readAndSetClustersDataToDomainResource,
    clusterIdsInTheCurrentDomain, sampleClient, sampleDomain, sampleData]

/-! ## Delete: theorems -/

/-- C3: when the mark-for-deletion `UpdateDomain` request returns an error, or
the wait on its task returns an error, `resourceDomainDelete` returns the
diagnostics of that error and `DeleteDomain` is never called: the only
mutating call is the mark-for-deletion update. -/
theorem resourceDomainDelete_mark_for_deletion_fails (c : SddcManagerClient)
    (hist : List Call) (data : ResourceData) (e : Err)
    (hfail : markForDeletionFails c hist data e) :
    (resourceDomainDelete c hist data).result = some (fromErr e) ∧
      (∀ call ∈ (resourceDomainDelete c hist data).calls, call.isDeleteDomain = false) ∧
      (∀ call ∈ (resourceDomainDelete c hist data).calls, call.isMutation = true →
        call = Call.updateDomain data.id ⟨true, ""⟩) := by
  have hs : createDomainUpdateSpec data true = ⟨true, ""⟩ := by simp [createDomainUpdateSpec]
  unfold markForDeletionFails at hfail
  rw [hs] at hfail
  rcases hfail with he | ⟨first, second, hupd, hwait⟩
  · simp [resourceDomainDelete, hs, he, Call.isDeleteDomain]
  · simp [resourceDomainDelete, hs, hupd, hwait, Call.isDeleteDomain, Call.isMutation]

/-- Witness of C3: the task of the mark-for-deletion update fails. -/
theorem resourceDomainDelete_mark_for_deletion_fails_witness :
    markForDeletionFails failingTaskClient [] sampleData (Err.remote "task failed") ∧
      ((resourceDomainDelete failingTaskClient [] sampleData).result
          = some (fromErr (Err.remote "task failed")) ∧
        (∀ call ∈ (resourceDomainDelete failingTaskClient [] sampleData).calls,
          call.isDeleteDomain = false) ∧
        (∀ call ∈ (resourceDomainDelete failingTaskClient [] sampleData).calls,
          call.isMutation = true → call = Call.updateDomain sampleData.id ⟨true, ""⟩)) :=
  have hfail : markForDeletionFails failingTaskClient [] sampleData (Err.remote "task failed") :=
    Or.inr ⟨⟨"task-update"⟩, some ⟨"task-update"⟩, rfl, rfl⟩
  ⟨hfail, resourceDomainDelete_mark_for_deletion_fails failingTaskClient [] sampleData
    (Err.remote "task failed") hfail⟩

/-- C4: when the mark-for-deletion phase has succeeded and `DeleteDomain`
succeeds with at least one of its two responses present, the calls of
`resourceDomainDelete` end with a wait, `mustSucceedOrFatal = true`, on the task
id of the second response when it is present and otherwise of the first one;
the result of the delete is the result of that wait. -/
theorem resourceDomainDelete_awaits_delete_task (c : SddcManagerClient) (hist : List Call)
    (data : ResourceData) (updateTask : Task) (second : Option Task) (resp : Responses)
    (hupd : c.updateDomain hist data.id (createDomainUpdateSpec data true)
      = .ok ⟨some updateTask, second⟩)
    (hwait : c.waitForTaskComplete
      (hist ++ [Call.updateDomain data.id (createDomainUpdateSpec data true)])
      updateTask.id false = none)
    (hdel : c.deleteDomain
      (hist ++ [Call.updateDomain data.id (createDomainUpdateSpec data true),
        Call.waitForTaskComplete updateTask.id false]) data.id = .ok resp)
    (hsome : resp.first ≠ none ∨ resp.second ≠ none) :
    ∃ taskId,
      (resp.second = some ⟨taskId⟩ ∨ (resp.second = none ∧ resp.first = some ⟨taskId⟩)) ∧
      (resourceDomainDelete c hist data).calls =
        [Call.updateDomain data.id (createDomainUpdateSpec data true),
          Call.waitForTaskComplete updateTask.id false,
          Call.deleteDomain data.id,
          Call.waitForTaskComplete taskId true] ∧
      (resourceDomainDelete c hist data).result =
        (match c.waitForTaskComplete
            (hist ++ [Call.updateDomain data.id (createDomainUpdateSpec data true),
              Call.waitForTaskComplete updateTask.id false, Call.deleteDomain data.id])
            taskId true with
          | some e => some (fromErr e)
          | none => some []) := by
  obtain ⟨r1, r2⟩ := resp
  cases r2 with
  | some t2 =>
    refine ⟨t2.id, Or.inl rfl, ?_, ?_⟩
    · simp only [resourceDomainDelete, hupd, hwait, hdel, List.append_assoc, List.singleton_append,
        List.cons_append, List.nil_append]
      cases r1 <;> split <;> rfl
    · simp only [resourceDomainDelete, hupd, hwait, hdel, List.append_assoc, List.singleton_append,
        List.cons_append, List.nil_append]
      cases r1 <;> split <;> simp_all
  | none =>
    cases r1 with
    | none => simp at hsome
    | some t1 =>
      refine ⟨t1.id, Or.inr ⟨rfl, rfl⟩, ?_, ?_⟩
      · simp only [resourceDomainDelete, hupd, hwait, hdel, List.append_assoc,
          List.singleton_append, List.cons_append, List.nil_append]
        split <;> rfl
      · simp only [resourceDomainDelete, hupd, hwait, hdel, List.append_assoc,
          List.singleton_append, List.cons_append, List.nil_append]
        split <;> simp_all

/-- Witness of C4: both responses are present and the second one is awaited. -/
theorem resourceDomainDelete_awaits_delete_task_witness :
    (resourceDomainDelete bothResponsesClient [] sampleData).calls =
      [Call.updateDomain "" ⟨true, ""⟩, Call.waitForTaskComplete "task-update" false,
        Call.deleteDomain "", Call.waitForTaskComplete "task-delete-2" true] := by
  obtain ⟨taskId, hpresent, hcalls, _⟩ :=
    resourceDomainDelete_awaits_delete_task bothResponsesClient [] sampleData ⟨"task-update"⟩
      (some ⟨"task-update"⟩) ⟨some ⟨"task-delete-1"⟩, some ⟨"task-delete-2"⟩⟩ rfl rfl rfl
      (Or.inl (by simp))
  have htask : taskId = "task-delete-2" := by
    rcases hpresent with h2 | ⟨h2, _⟩
    · simp only [Option.some.injEq, Task.mk.injEq] at h2
      exact h2.symm
    · simp at h2
  rw [hcalls, htask]
  simp [createDomainUpdateSpec, sampleData]

/-! ## Update: the three loops -/

/-- The loop over added clusters only issues `createCluster` calls. -/
theorem addClusters_calls (h : Helpers) (c : SddcManagerClient) (domainId : String)
    (added : List ClusterState) :
    ∀ hist, ∀ call ∈ (addClusters h c domainId hist added).calls,
      ∃ spec, call = Call.createCluster domainId spec := by
  induction added with
  | nil => intro hist call hcall; simp [addClusters] at hcall
  | cons a rest ih =>
    intro hist call hcall
    simp only [addClusters] at hcall
    split at hcall
    · simp at hcall
    · split at hcall
      · simp only [List.mem_singleton] at hcall
        exact ⟨_, hcall⟩
      · simp only [List.mem_cons] at hcall
        rcases hcall with hcall | hcall
        · exact ⟨_, hcall⟩
        · exact ih _ call hcall

/-- The loop over removed clusters only issues `deleteCluster` calls. -/
theorem removeClusters_calls (c : SddcManagerClient) (removed : List ClusterState) :
    ∀ hist, ∀ call ∈ (removeClusters c hist removed).calls,
      ∃ id, call = Call.deleteCluster id := by
  induction removed with
  | nil => intro hist call hcall; simp [removeClusters] at hcall
  | cons r rest ih =>
    intro hist call hcall
    simp only [removeClusters] at hcall
    split at hcall
    · simp only [List.mem_singleton] at hcall
      exact ⟨_, hcall⟩
    · simp only [List.mem_cons] at hcall
      rcases hcall with hcall | hcall
      · exact ⟨_, hcall⟩
      · exact ih _ call hcall

/-- The loop over cluster pairs only issues `updateCluster` calls. -/
theorem updateClusters_calls (h : Helpers) (c : SddcManagerClient) (news : List ClusterState) :
    ∀ olds hist, ∀ call ∈ (updateClusters h c hist news olds).calls,
      ∃ id spec, call = Call.updateCluster id spec := by
  induction news with
  | nil => intro olds hist call hcall; simp [updateClusters] at hcall
  | cons n rest ih =>
    intro olds hist call hcall
    cases olds with
    | nil => simp [updateClusters] at hcall
    | cons o olds =>
      simp only [updateClusters] at hcall
      split at hcall
      · exact ih _ _ call hcall
      · split at hcall
        · simp at hcall
        · split at hcall
          · exact ih _ _ call hcall
          · split at hcall
            · simp at hcall
            · split at hcall
              · simp only [List.mem_singleton] at hcall
                exact ⟨_, _, hcall⟩
              · simp only [List.mem_cons] at hcall
                rcases hcall with hcall | hcall
                · exact ⟨_, _, hcall⟩
                · exact ih _ _ call hcall

/-- The add/remove path issues `createCluster` and `deleteCluster` calls only. -/
theorem handleClusterAddRemoveToDomain_calls_kind (h : Helpers) (c : SddcManagerClient)
    (hist : List Call) (domainId : String) (news olds : List ClusterState) :
    ∀ call ∈ (handleClusterAddRemoveToDomain h c hist domainId news olds).calls,
      (∃ spec, call = Call.createCluster domainId spec) ∨ (∃ id, call = Call.deleteCluster id) := by
  intro call hcall
  simp only [handleClusterAddRemoveToDomain] at hcall
  split at hcall
  · exact Or.inl (addClusters_calls h c domainId _ _ call hcall)
  · simp only [List.mem_append] at hcall
    rcases hcall with hcall | hcall
    · exact Or.inl (addClusters_calls h c domainId _ _ call hcall)
    · exact Or.inr (removeClusters_calls c _ _ call hcall)

/-- The expand/contract path issues `updateCluster` calls only. -/
theorem handleClusterUpdateInDomain_calls_kind (h : Helpers) (c : SddcManagerClient)
    (hist : List Call) (news olds : List ClusterState) :
    ∀ call ∈ (handleClusterUpdateInDomain h c hist news olds).calls,
      ∃ id spec, call = Call.updateCluster id spec := by
  intro call hcall
  simp only [handleClusterUpdateInDomain] at hcall
  split at hcall
  · simp at hcall
  · exact updateClusters_calls h c news olds hist call hcall

/-- The name block issues `UpdateDomain` and wait calls only. -/
theorem updateDomainName_calls_kind (c : SddcManagerClient) (hist : List Call)
    (data : ResourceData) :
    ∀ call ∈ (updateDomainName c hist data).calls,
      (∃ id spec, call = Call.updateDomain id spec) ∨
        (∃ taskId flag, call = Call.waitForTaskComplete taskId flag) := by
  intro call hcall
  simp only [updateDomainName] at hcall
  split at hcall
  · split at hcall
    · simp only [List.mem_singleton] at hcall
      exact Or.inl ⟨_, _, hcall⟩
    · split at hcall
      · simp only [List.mem_singleton] at hcall
        exact Or.inl ⟨_, _, hcall⟩
      · split at hcall <;>
        · simp only [List.singleton_append, List.mem_cons, List.mem_singleton,
            List.not_mem_nil, or_false] at hcall
          rcases hcall with hcall | hcall
          · exact Or.inl ⟨_, _, hcall⟩
          · exact Or.inr ⟨_, _, hcall⟩
  · simp at hcall

/-- A read issues `GetDomain` and `GetClusters` calls only. -/
theorem resourceDomainRead_calls_kind (c : SddcManagerClient) (hist : List Call)
    (data : ResourceData) :
    ∀ call ∈ (resourceDomainRead c hist data).calls,
      (∃ id, call = Call.getDomain id) ∨ call = Call.getClusters := by
  have hsub : ∀ refs hist2 data2,
      ∀ call ∈ (readAndSetClustersDataToDomainResource refs c hist2 data2).calls,
        call = Call.getClusters := by
    intro refs hist2 data2 call hcall
    simp only [readAndSetClustersDataToDomainResource] at hcall
    split at hcall
    · simp at hcall
    · split at hcall <;> simpa using hcall
  intro call hcall
  simp only [resourceDomainRead] at hcall
  split at hcall
  · simp only [List.mem_singleton] at hcall
    exact Or.inl ⟨_, hcall⟩
  · split at hcall
    · simp only [List.mem_singleton] at hcall
      exact Or.inl ⟨_, hcall⟩
    · split at hcall
      · split at hcall <;>
        · simp only [List.mem_cons] at hcall
          rcases hcall with hcall | hcall
          · exact Or.inl ⟨_, hcall⟩
          · exact Or.inr (hsub _ _ _ call hcall)
      · simp only [List.mem_singleton] at hcall
        exact Or.inl ⟨_, hcall⟩

/-- Every call of `resourceDomainUpdate` comes from the name block, from the
cluster block, or from the final read. -/
theorem resourceDomainUpdate_calls_mem (h : Helpers) (c : SddcManagerClient) (hist : List Call)
    (data : ResourceData) :
    ∀ call ∈ (resourceDomainUpdate h c hist data).calls,
      ((∃ id spec, call = Call.updateDomain id spec) ∨
        (∃ taskId flag, call = Call.waitForTaskComplete taskId flag)) ∨
      call ∈ (updateDomainClusters h c (hist ++ (updateDomainName c hist data).calls) data).calls ∨
      ((∃ id, call = Call.getDomain id) ∨ call = Call.getClusters) := by
  intro call hcall
  simp only [resourceDomainUpdate] at hcall
  split at hcall
  · exact Or.inl (updateDomainName_calls_kind c hist data call hcall)
  · split at hcall
    · simp only [List.mem_append] at hcall
      rcases hcall with hcall | hcall
      · exact Or.inl (updateDomainName_calls_kind c hist data call hcall)
      · exact Or.inr (Or.inl hcall)
    · simp only [List.mem_append] at hcall
      rcases hcall with (hcall | hcall) | hcall
      · exact Or.inl (updateDomainName_calls_kind c hist data call hcall)
      · exact Or.inr (Or.inl hcall)
      · exact Or.inr (Or.inr (resourceDomainRead_calls_kind c _ data call hcall))

/-! ## Update: theorems -/

/-- The update ends with the name block when that block does not return nil,
and otherwise runs its cluster block as its cluster step. -/
theorem resourceDomainUpdate_steps (h : Helpers) (c : SddcManagerClient) (hist : List Call)
    (data : ResourceData) :
    ((updateDomainName c hist data).result ≠ some [] →
      resourceDomainUpdate h c hist data =
        ⟨(updateDomainName c hist data).calls, data, (updateDomainName c hist data).result⟩) ∧
    ((updateDomainName c hist data).result = some [] →
      RunsClusterStep h c hist data
        (updateDomainClusters h c (hist ++ (updateDomainName c hist data).calls) data)) := by
  refine ⟨?_, ?_⟩
  · intro hname
    simp only [resourceDomainUpdate]
    rw [if_pos hname]
  · intro hname
    refine ⟨?_, ?_⟩
    · intro hstep
      simp only [resourceDomainUpdate]
      rw [if_neg (by simpa using hname), if_pos hstep]
    · intro hstep
      simp only [resourceDomainUpdate]
      rw [if_neg (by simpa using hname), if_neg (by simpa using hstep)]

/-- C5: in a `resourceDomainUpdate` whose `cluster` attribute changed, once the
name block has returned nil: when the prior and the desired cluster lists
differ in length the update runs `handleClusterAddRemoveToDomain` on these
lists as its cluster step, and it issues no `updateCluster` call; when the
lengths are equal it runs `handleClusterUpdateInDomain` as its cluster step,
issues no `createCluster` and no `deleteCluster` call, and that run is the run
of the loop behind the length guard, so the guard's length-mismatch error is
not what it returns.  When the name block does not return nil the update ends
there and runs neither. -/
theorem resourceDomainUpdate_cluster_policy (h : Helpers) (c : SddcManagerClient)
    (hist : List Call) (data : ResourceData) (hchange : data.hasChangeCluster = true) :
    ((updateDomainName c hist data).result ≠ some [] →
      resourceDomainUpdate h c hist data =
        ⟨(updateDomainName c hist data).calls, data, (updateDomainName c hist data).result⟩) ∧
    (data.priorCluster.length ≠ data.cluster.length →
      ((updateDomainName c hist data).result = some [] →
        RunsClusterStep h c hist data
          (handleClusterAddRemoveToDomain h c (hist ++ (updateDomainName c hist data).calls)
            data.id data.cluster data.priorCluster)) ∧
      (∀ call ∈ (resourceDomainUpdate h c hist data).calls, call.isUpdateCluster = false)) ∧
    (data.priorCluster.length = data.cluster.length →
      ((updateDomainName c hist data).result = some [] →
        RunsClusterStep h c hist data
          (handleClusterUpdateInDomain h c (hist ++ (updateDomainName c hist data).calls)
            data.cluster data.priorCluster)) ∧
      (∀ hist2, handleClusterUpdateInDomain h c hist2 data.cluster data.priorCluster =
        updateClusters h c hist2 data.cluster data.priorCluster) ∧
      (∀ call ∈ (resourceDomainUpdate h c hist data).calls,
        call.isCreateCluster = false ∧ call.isDeleteCluster = false)) := by
  refine ⟨(resourceDomainUpdate_steps h c hist data).1, ?_, ?_⟩
  · intro hlen
    have hblock : ∀ hist2, updateDomainClusters h c hist2 data =
        handleClusterAddRemoveToDomain h c hist2 data.id data.cluster data.priorCluster := by
      intro hist2
      simp [updateDomainClusters, hchange, hlen]
    refine ⟨?_, ?_⟩
    · intro hname
      rw [← hblock]
      exact (resourceDomainUpdate_steps h c hist data).2 hname
    · intro call hcall
      rcases resourceDomainUpdate_calls_mem h c hist data call hcall with
        (⟨_, _, rfl⟩ | ⟨_, _, rfl⟩) | hmid | (⟨_, rfl⟩ | rfl)
      · rfl
      · rfl
      · rw [hblock] at hmid
        rcases handleClusterAddRemoveToDomain_calls_kind h c _ _ _ _ call hmid with
          ⟨_, rfl⟩ | ⟨_, rfl⟩ <;> rfl
      · rfl
      · rfl
  · intro hlen
    have hblock : ∀ hist2, updateDomainClusters h c hist2 data =
        handleClusterUpdateInDomain h c hist2 data.cluster data.priorCluster := by
      intro hist2
      simp [updateDomainClusters, hchange, hlen]
    refine ⟨?_, ?_, ?_⟩
    · intro hname
      rw [← hblock]
      exact (resourceDomainUpdate_steps h c hist data).2 hname
    · intro hist2
      simp [handleClusterUpdateInDomain, hlen]
    · intro call hcall
      rcases resourceDomainUpdate_calls_mem h c hist data call hcall with
        (⟨_, _, rfl⟩ | ⟨_, _, rfl⟩) | hmid | (⟨_, rfl⟩ | rfl)
      · exact ⟨rfl, rfl⟩
      · exact ⟨rfl, rfl⟩
      · rw [hblock] at hmid
        obtain ⟨_, _, rfl⟩ := handleClusterUpdateInDomain_calls_kind h c _ _ _ call hmid
        exact ⟨rfl, rfl⟩
      · exact ⟨rfl, rfl⟩
      · exact ⟨rfl, rfl⟩

/-- Witness of C5: with equal lengths (a host added to the only cluster) the
update makes the `updateCluster` call of the expand/contract path and then
reads; with unequal lengths (three clusters to four) it makes the
`createCluster` call of the add/remove path and then reads. -/
theorem resourceDomainUpdate_cluster_policy_witness :
    (resourceDomainUpdate sampleHelpers sampleClient [] expandData).calls =
        [Call.updateCluster "cl-1" ⟨"h1,h2,h3 -> h1,h2,h3,h4"⟩, Call.getDomain "domain-1",
          Call.getClusters] ∧
      (resourceDomainUpdate sampleHelpers sampleClient [] addClusterData).calls =
        [Call.createCluster "domain-1" ⟨"c4"⟩, Call.getDomain "domain-1",
          Call.getClusters] := by
  have hequal := (((resourceDomainUpdate_cluster_policy sampleHelpers sampleClient []
    expandData (by decide)).2.2 rfl).1 rfl).2 (by decide)
  have hdiffer := (((resourceDomainUpdate_cluster_policy sampleHelpers sampleClient []
    addClusterData (by decide)).2.1 (by decide)).1 rfl).2 (by decide)
  rw [hequal, hdiffer]
  exact ⟨by decide, by decide⟩

/-- The loop over cluster pairs does nothing when every pair agrees on id and
host list. -/
theorem updateClusters_unchanged (h : Helpers) (c : SddcManagerClient)
    (news : List ClusterState) :
    ∀ olds hist, olds.length = news.length →
      (∀ p ∈ news.zip olds, p.1.id = p.2.id ∧ p.1.host = p.2.host) →
      updateClusters h c hist news olds = ⟨[], some []⟩ := by
  induction news with
  | nil => intro olds hist _ _; simp [updateClusters]
  | cons n rest ih =>
    intro olds hist hlen hsame
    cases olds with
    | nil => simp at hlen
    | cons o olds =>
      have hhead := hsame (n, o) (by simp)
      have htail : ∀ p ∈ rest.zip olds, p.1.id = p.2.id ∧ p.1.host = p.2.host :=
        fun p hp => hsame p (by simp [hp])
      have hrec := ih olds hist (by simpa using hlen) htail
      simp only [updateClusters]
      split
      · exact hrec
      · rw [if_neg (by simpa using hhead.1), if_pos hhead.2.symm]
        exact hrec

/-- C6: for prior and desired cluster lists of equal length whose clusters
agree, position by position, on id and host list, `handleClusterUpdateInDomain`
returns nil diagnostics and issues no call at all; hence a
`resourceDomainUpdate` on such lists with an unchanged name is exactly the run
of `resourceDomainRead`. -/
theorem handleClusterUpdateInDomain_unchanged (h : Helpers) (c : SddcManagerClient)
    (news olds : List ClusterState) (hlen : olds.length = news.length)
    (hsame : ∀ p ∈ news.zip olds, p.1.id = p.2.id ∧ p.1.host = p.2.host) :
    (∀ hist, handleClusterUpdateInDomain h c hist news olds = ⟨[], some []⟩) ∧
      (∀ hist data, data.cluster = news → data.priorCluster = olds →
        data.hasChangeName = false →
        resourceDomainUpdate h c hist data = resourceDomainRead c hist data) := by
  have hfirst : ∀ hist, handleClusterUpdateInDomain h c hist news olds = ⟨[], some []⟩ := by
    intro hist
    simp only [handleClusterUpdateInDomain]
    rw [if_neg (by simpa using hlen)]
    exact updateClusters_unchanged h c news olds hist hlen hsame
  refine ⟨hfirst, ?_⟩
  intro hist data hnew hold hname
  have hblock : ∀ hist2, updateDomainClusters h c hist2 data = ⟨[], some []⟩ := by
    intro hist2
    simp only [updateDomainClusters]
    split
    · rw [hnew, hold, if_pos hlen]
      exact hfirst hist2
    · rfl
  simp [resourceDomainUpdate, updateDomainName, hname, hblock]

/-- Witness of C6: the only cluster changes its name and nothing else. -/
theorem handleClusterUpdateInDomain_unchanged_witness :
    handleClusterUpdateInDomain sampleHelpers sampleClient []
        [sampleCluster "cl-1" "renamed" ["h1", "h2"]] [sampleCluster "cl-1" "c1" ["h1", "h2"]]
      = ⟨[], some []⟩ :=
  (handleClusterUpdateInDomain_unchanged sampleHelpers sampleClient
    [sampleCluster "cl-1" "renamed" ["h1", "h2"]] [sampleCluster "cl-1" "c1" ["h1", "h2"]] rfl
    (by simp [sampleCluster])).1 []

/-- When every conversion and every `createCluster` succeeds, the loop over the
added clusters issues one `createCluster` per cluster, in order. -/
theorem addClusters_success (h : Helpers) (c : SddcManagerClient) (domainId : String)
    (added : List ClusterState) :
    ∀ specs hist, List.Forall₂ (fun a s => h.tryConvertToClusterSpec a = .ok s) added specs →
      (∀ hist2, ∀ s ∈ specs, (c.createCluster hist2 domainId s).2 = []) →
      addClusters h c domainId hist added = ⟨specs.map (Call.createCluster domainId), some []⟩ := by
  induction added with
  | nil =>
    intro specs hist hconv _
    cases hconv
    simp [addClusters]
  | cons a rest ih =>
    intro specs hist hconv hcreate
    cases hconv with
    | cons hhead htail =>
      rename_i s specs
      have hrec := ih specs (hist ++ [Call.createCluster domainId s]) htail
        (fun hist2 s2 hs2 => hcreate hist2 s2 (List.mem_cons_of_mem _ hs2))
      simp only [addClusters, hhead]
      rw [if_neg (by simp [hcreate hist s (List.mem_cons_self _ _)]), hrec]
      simp

/-- When every `deleteCluster` succeeds, the loop over the removed clusters
issues one `deleteCluster` per cluster, in order. -/
theorem removeClusters_success (c : SddcManagerClient) (removed : List ClusterState) :
    ∀ hist, (∀ hist2, ∀ r ∈ removed, c.deleteCluster hist2 r.id = []) →
      removeClusters c hist removed
        = ⟨removed.map (fun r => Call.deleteCluster r.id), some []⟩ := by
  induction removed with
  | nil => intro hist _; simp [removeClusters]
  | cons r rest ih =>
    intro hist hdelete
    have hrec := ih (hist ++ [Call.deleteCluster r.id])
      (fun hist2 r2 hr2 => hdelete hist2 r2 (List.mem_cons_of_mem _ hr2))
    simp only [removeClusters]
    rw [if_neg (by simp [hdelete hist r (List.mem_cons_self _ _)]), hrec]
    simp

/-- A list of `createCluster` calls holds as many creations as entries and no
deletion. -/
theorem countP_createCluster_map (domainId : String) (specs : List ClusterSpec) :
    (specs.map (Call.createCluster domainId)).countP Call.isCreateCluster = specs.length ∧
      (specs.map (Call.createCluster domainId)).countP Call.isDeleteCluster = 0 := by
  induction specs with
  | nil => simp
  | cons s rest ih => simp [List.countP_cons, Call.isCreateCluster, Call.isDeleteCluster, ih]

/-- A list of `deleteCluster` calls holds as many deletions as entries and no
creation. -/
theorem countP_deleteCluster_map (removed : List ClusterState) :
    (removed.map (fun r => Call.deleteCluster r.id)).countP Call.isDeleteCluster
        = removed.length ∧
      (removed.map (fun r => Call.deleteCluster r.id)).countP Call.isCreateCluster = 0 := by
  induction removed with
  | nil => simp
  | cons r rest ih => simp [List.countP_cons, Call.isCreateCluster, Call.isDeleteCluster, ih]

/-- Counterexample to C7: the diff yields two added clusters and one removed
cluster and every remote call succeeds, but the added clusters do not convert
to a cluster spec; `handleClusterAddRemoveToDomain` returns the conversion
error and issues no call at all, neither a creation nor the removal. -/
theorem handleClusterAddRemoveToDomain_conversion_failure :
    rejectingClusterHelpers.calculateAddedRemovedResources replaceClustersData.cluster
        replaceClustersData.priorCluster
        = ([sampleCluster "" "c4" ["h4"], sampleCluster "" "c5" ["h5"]],
          [sampleCluster "cl-2" "c2" ["h2"]]) ∧
      (∀ hist spec, (sampleClient.createCluster hist "domain-1" spec).2 = []) ∧
      (∀ hist clusterId, sampleClient.deleteCluster hist clusterId = []) ∧
      handleClusterAddRemoveToDomain rejectingClusterHelpers sampleClient [] "domain-1"
        replaceClustersData.cluster replaceClustersData.priorCluster
        = ⟨[], some (fromErr (Err.remote "invalid cluster"))⟩ :=
  ⟨by decide, fun _ _ => rfl, fun _ _ => rfl, by decide⟩

/-- C7, amended: when the cluster diff yields the added list `added` and the
removed list `removed`, every added cluster converts to a cluster spec (giving
`specs`) and every remote call succeeds, `handleClusterAddRemoveToDomain`
returns nil diagnostics and its calls are exactly one `createCluster` per added
cluster, in the order of `added`, followed by one `deleteCluster` per removed
cluster, in the order of `removed`.  So there are as many creations as added
clusters and as many deletions as removed clusters: one and zero for one added
and none removed, zero and one for one removed and none added. -/
theorem handleClusterAddRemoveToDomain_success (h : Helpers) (c : SddcManagerClient)
    (hist : List Call) (domainId : String) (news olds added removed : List ClusterState)
    (specs : List ClusterSpec)
    (hdiff : h.calculateAddedRemovedResources news olds = (added, removed))
    (hconv : List.Forall₂ (fun a s => h.tryConvertToClusterSpec a = .ok s) added specs)
    (hcreate : ∀ hist2, ∀ s ∈ specs, (c.createCluster hist2 domainId s).2 = [])
    (hdelete : ∀ hist2, ∀ r ∈ removed, c.deleteCluster hist2 r.id = []) :
    handleClusterAddRemoveToDomain h c hist domainId news olds =
        ⟨specs.map (Call.createCluster domainId) ++
          removed.map (fun r => Call.deleteCluster r.id), some []⟩ ∧
      (handleClusterAddRemoveToDomain h c hist domainId news olds).calls.countP
        Call.isCreateCluster = added.length ∧
      (handleClusterAddRemoveToDomain h c hist domainId news olds).calls.countP
        Call.isDeleteCluster = removed.length := by
  have hrun : handleClusterAddRemoveToDomain h c hist domainId news olds =
      ⟨specs.map (Call.createCluster domainId) ++
        removed.map (fun r => Call.deleteCluster r.id), some []⟩ := by
    simp only [handleClusterAddRemoveToDomain, hdiff]
    rw [addClusters_success h c domainId added specs hist hconv hcreate]
    simp only [ne_eq, not_true_eq_false, if_false]
    rw [removeClusters_success c removed _ hdelete]
  refine ⟨hrun, ?_, ?_⟩
  · rw [hrun]
    simp only [List.countP_append, (countP_createCluster_map domainId specs).1,
      (countP_deleteCluster_map removed).2, Nat.add_zero]
    exact hconv.length_eq.symm
  · rw [hrun]
    simp only [List.countP_append, (countP_createCluster_map domainId specs).2,
      (countP_deleteCluster_map removed).1, Nat.zero_add]

/-- Witness of the amended C7: from three clusters to four. -/
theorem handleClusterAddRemoveToDomain_success_witness :
    handleClusterAddRemoveToDomain sampleHelpers sampleClient [] "domain-1"
          addClusterData.cluster addClusterData.priorCluster
        = ⟨[Call.createCluster "domain-1" ⟨"c4"⟩], some []⟩ ∧
      (handleClusterAddRemoveToDomain sampleHelpers sampleClient [] "domain-1"
          addClusterData.cluster addClusterData.priorCluster).calls.countP
        Call.isCreateCluster = 1 ∧
      (handleClusterAddRemoveToDomain sampleHelpers sampleClient [] "domain-1"
          addClusterData.cluster addClusterData.priorCluster).calls.countP
        Call.isDeleteCluster = 0 :=
  handleClusterAddRemoveToDomain_success sampleHelpers sampleClient [] "domain-1"
    addClusterData.cluster addClusterData.priorCluster [sampleCluster "" "c4" ["h4"]] []
    [⟨"c4"⟩] (by decide) (by simp [sampleHelpers, sampleCluster]) (fun _ _ _ => rfl)
    (fun _ _ _ => rfl)

/-- When the ids agree at every position and every spec construction and every
`updateCluster` succeeds, the loop over cluster pairs makes the expected calls. -/
theorem updateClusters_success (h : Helpers) (c : SddcManagerClient)
    (news : List ClusterState) :
    ∀ olds hist, olds.length = news.length →
      (∀ p ∈ news.zip olds, p.1.id = p.2.id) →
      (∀ p ∈ news.zip olds, p.2.host ≠ p.1.host →
        ∃ spec, h.setExpansionOrContractionSpec p.2.host p.1.host = .ok spec) →
      (∀ hist2, ∀ p ∈ news.zip olds, ∀ spec, c.updateCluster hist2 p.1.id spec = []) →
      updateClusters h c hist news olds = ⟨hostUpdateCalls h news olds, some []⟩ ∧
        (hostUpdateCalls h news olds).length
          = (news.zip olds).countP (fun p => decide (p.2.host ≠ p.1.host)) := by
  induction news with
  | nil => intro olds hist _ _ _ _; simp [updateClusters, hostUpdateCalls]
  | cons n rest ih =>
    intro olds hist hlen hids hspec hupdate
    cases olds with
    | nil => simp at hlen
    | cons o olds =>
      have hid : n.id = o.id := hids (n, o) (by simp)
      have hrec := fun hist2 => ih olds hist2 (by simpa using hlen)
        (fun p hp => hids p (by simp [hp]))
        (fun p hp => hspec p (by simp [hp]))
        (fun hist3 p hp => hupdate hist3 p (by simp [hp]))
      have htailCalls : hostUpdateCalls h (n :: rest) (o :: olds) =
          (if o.host = n.host then []
            else match h.setExpansionOrContractionSpec o.host n.host with
              | .ok spec => [Call.updateCluster n.id spec]
              | .error _ => []) ++ hostUpdateCalls h rest olds := by
        simp only [hostUpdateCalls, List.zip_cons_cons, List.filterMap_cons]
        by_cases hh : o.host = n.host
        · simp [hh]
        · simp only [hh, if_false]
          cases h.setExpansionOrContractionSpec o.host n.host <;> simp
      by_cases hhost : o.host = n.host
      · have hloop : updateClusters h c hist (n :: rest) (o :: olds) =
            updateClusters h c hist rest olds := by
          simp only [updateClusters]
          split
          · rfl
          · simp [hid, hhost]
        rw [hloop, htailCalls, if_pos hhost]
        refine ⟨by simpa using (hrec hist).1, ?_⟩
        simp [List.countP_cons, hhost, (hrec hist).2]
      · obtain ⟨spec, hbuilt⟩ := hspec (n, o) (by simp) hhost
        have hneq : n ≠ o := fun heq => hhost (by rw [heq])
        have hloop : updateClusters h c hist (n :: rest) (o :: olds) =
            ⟨Call.updateCluster n.id spec ::
                (updateClusters h c (hist ++ [Call.updateCluster n.id spec]) rest olds).calls,
              (updateClusters h c (hist ++ [Call.updateCluster n.id spec]) rest olds).result⟩ := by
          simp only [updateClusters]
          rw [if_neg hneq, if_neg (by simpa using hid), if_neg hhost]
          simp only [hbuilt]
          rw [if_neg (by simp [hupdate hist (n, o) (by simp) spec])]
        rw [hloop, htailCalls, if_neg hhost, hbuilt, (hrec _).1]
        refine ⟨by simp, ?_⟩
        simp [List.countP_cons, hhost, (hrec hist).2]

/-- C8: for equal-length cluster lists whose ids agree at every position, when
every spec construction and every `updateCluster` succeeds,
`handleClusterUpdateInDomain` returns nil diagnostics and its calls are exactly
`hostUpdateCalls`: one `updateCluster` per position whose host lists differ, in
position order, addressed to the id of that position with the spec built from
its old and new host lists, and no call for any other position; so the number
of calls is the number of positions whose host lists differ. -/
theorem handleClusterUpdateInDomain_success (h : Helpers) (c : SddcManagerClient)
    (hist : List Call) (news olds : List ClusterState) (hlen : olds.length = news.length)
    (hids : ∀ p ∈ news.zip olds, p.1.id = p.2.id)
    (hspec : ∀ p ∈ news.zip olds, p.2.host ≠ p.1.host →
      ∃ spec, h.setExpansionOrContractionSpec p.2.host p.1.host = .ok spec)
    (hupdate : ∀ hist2, ∀ p ∈ news.zip olds, ∀ spec, c.updateCluster hist2 p.1.id spec = []) :
    handleClusterUpdateInDomain h c hist news olds = ⟨hostUpdateCalls h news olds, some []⟩ ∧
      (handleClusterUpdateInDomain h c hist news olds).calls.length
        = (news.zip olds).countP (fun p => decide (p.2.host ≠ p.1.host)) := by
  have hloop := updateClusters_success h c news olds hist hlen hids hspec hupdate
  have hrun : handleClusterUpdateInDomain h c hist news olds
      = ⟨hostUpdateCalls h news olds, some []⟩ := by
    simp only [handleClusterUpdateInDomain]
    rw [if_neg (by simpa using hlen)]
    exact hloop.1
  exact ⟨hrun, by rw [hrun]; exact hloop.2⟩

/-- Witness of C8: the only cluster goes from hosts h1, h2, h3 to h1, h2, h3,
h4, which gives exactly one `updateCluster` call. -/
theorem handleClusterUpdateInDomain_success_witness :
    handleClusterUpdateInDomain sampleHelpers sampleClient [] expandData.cluster
          expandData.priorCluster
        = ⟨[Call.updateCluster "cl-1" ⟨"h1,h2,h3 -> h1,h2,h3,h4"⟩], some []⟩ ∧
      (handleClusterUpdateInDomain sampleHelpers sampleClient [] expandData.cluster
          expandData.priorCluster).calls.length = 1 :=
  handleClusterUpdateInDomain_success sampleHelpers sampleClient [] expandData.cluster
    expandData.priorCluster rfl (by decide) (fun _ _ _ => ⟨_, rfl⟩) (fun _ _ _ _ => rfl)

/-- The loop over cluster pairs, run on lists that extend equal-length
prefixes: it is the run on the prefixes when that run stops early, and
otherwise that run followed by the run on the rest. -/
theorem updateClusters_append (h : Helpers) (c : SddcManagerClient)
    (pn : List ClusterState) :
    ∀ po hist ns os, po.length = pn.length →
      updateClusters h c hist (pn ++ ns) (po ++ os) =
        if (updateClusters h c hist pn po).result = some [] then
          ⟨(updateClusters h c hist pn po).calls ++
              (updateClusters h c (hist ++ (updateClusters h c hist pn po).calls) ns os).calls,
            (updateClusters h c (hist ++ (updateClusters h c hist pn po).calls) ns os).result⟩
        else updateClusters h c hist pn po := by
  induction pn with
  | nil =>
    intro po hist ns os hlen
    cases po with
    | nil => simp [updateClusters]
    | cons o olds => simp at hlen
  | cons n rest ih =>
    intro po hist ns os hlen
    cases po with
    | nil => simp at hlen
    | cons o olds =>
      have hlen2 : olds.length = rest.length := by simpa using hlen
      simp only [List.cons_append, updateClusters]
      by_cases heq : n = o
      · simp only [heq, if_true]
        exact ih olds hist ns os hlen2
      · simp only [heq, if_false]
        by_cases hid : n.id = o.id
        · simp only [hid, ne_eq, not_true_eq_false, if_false]
          by_cases hhost : o.host = n.host
          · simp only [hhost, if_true]
            exact ih olds hist ns os hlen2
          · simp only [hhost, if_false]
            cases hbuilt : h.setExpansionOrContractionSpec o.host n.host with
            | error e => simp [fromErr]
            | ok spec =>
              simp only []
              by_cases hdiags : c.updateCluster hist o.id spec = []
              · simp only [hdiags, ne_eq, not_true_eq_false, if_false, List.append_eq]
                rw [ih olds (hist ++ [Call.updateCluster o.id spec]) ns os hlen2]
                split <;> simp
              · simp [hdiags]
        · simp [hid, fromErr]

/-- C9: for equal-length cluster lists, when the positions before `i` are
handled without failure and the clusters at position `i` have different ids (so
they are unequal), `handleClusterUpdateInDomain` returns the error that the
cluster order has changed, and its calls are those made for the positions
before `i`: none for position `i` and none for any later position, whatever
the host lists at position `i` are. -/
theorem handleClusterUpdateInDomain_order_changed (h : Helpers) (c : SddcManagerClient)
    (hist : List Call) (pn po ns os : List ClusterState) (n o : ClusterState)
    (hpre : po.length = pn.length) (hpost : os.length = ns.length)
    (hok : (handleClusterUpdateInDomain h c hist pn po).result = some [])
    (hid : n.id ≠ o.id) :
    n ≠ o ∧
      handleClusterUpdateInDomain h c hist (pn ++ n :: ns) (po ++ o :: os) =
        ⟨(handleClusterUpdateInDomain h c hist pn po).calls,
          some (fromErr Err.clusterOrderChanged)⟩ := by
  have hneq : n ≠ o := fun heq => hid (by rw [heq])
  refine ⟨hneq, ?_⟩
  have hguard : handleClusterUpdateInDomain h c hist pn po = updateClusters h c hist pn po := by
    simp [handleClusterUpdateInDomain, hpre]
  rw [hguard] at hok ⊢
  have hlen : ¬ (po ++ o :: os).length ≠ (pn ++ n :: ns).length := by
    simp [hpre, hpost]
  simp only [handleClusterUpdateInDomain]
  rw [if_neg hlen, updateClusters_append h c pn po hist (n :: ns) (o :: os) hpre, if_pos hok]
  simp [updateClusters, hneq, hid]

/-- Witness of C9: after an unchanged first cluster, the second position holds
another cluster id and another host list. -/
theorem handleClusterUpdateInDomain_order_changed_witness :
    handleClusterUpdateInDomain sampleHelpers sampleClient []
        [sampleCluster "cl-1" "c1" ["h1"], sampleCluster "cl-3" "c3" ["h3", "h4"]]
        [sampleCluster "cl-1" "c1" ["h1"], sampleCluster "cl-2" "c2" ["h2"]]
      = ⟨[], some (fromErr Err.clusterOrderChanged)⟩ :=
  (handleClusterUpdateInDomain_order_changed sampleHelpers sampleClient []
    [sampleCluster "cl-1" "c1" ["h1"]] [sampleCluster "cl-1" "c1" ["h1"]] [] []
    (sampleCluster "cl-3" "c3" ["h3", "h4"]) (sampleCluster "cl-2" "c2" ["h2"]) rfl rfl
    (by decide) (by decide)).2

/-! ## Update: several failing siblings -/

/-- The loop over added clusters, run on a list that extends a first part: it
is the run on the first part when that run stops early, and otherwise that run
followed by the run on the rest. -/
theorem addClusters_append (h : Helpers) (c : SddcManagerClient) (domainId : String)
    (xs : List ClusterState) :
    ∀ hist ys, addClusters h c domainId hist (xs ++ ys) =
      if (addClusters h c domainId hist xs).result = some [] then
        ⟨(addClusters h c domainId hist xs).calls ++
            (addClusters h c domainId (hist ++ (addClusters h c domainId hist xs).calls) ys).calls,
          (addClusters h c domainId (hist ++ (addClusters h c domainId hist xs).calls) ys).result⟩
      else addClusters h c domainId hist xs := by
  induction xs with
  | nil => intro hist ys; simp [addClusters]
  | cons a rest ih =>
    intro hist ys
    simp only [List.cons_append, addClusters]
    cases hconv : h.tryConvertToClusterSpec a with
    | error e => simp [fromErr]
    | ok spec =>
      simp only []
      by_cases hdiags : (c.createCluster hist domainId spec).2 = []
      · simp only [hdiags, ne_eq, not_true_eq_false, if_false, List.append_eq]
        rw [ih (hist ++ [Call.createCluster domainId spec]) ys]
        split <;> simp
      · simp [hdiags]

/-- The loop over removed clusters, run on a list that extends a first part. -/
theorem removeClusters_append (c : SddcManagerClient) (xs : List ClusterState) :
    ∀ hist ys, removeClusters c hist (xs ++ ys) =
      if (removeClusters c hist xs).result = some [] then
        ⟨(removeClusters c hist xs).calls ++
            (removeClusters c (hist ++ (removeClusters c hist xs).calls) ys).calls,
          (removeClusters c (hist ++ (removeClusters c hist xs).calls) ys).result⟩
      else removeClusters c hist xs := by
  induction xs with
  | nil => intro hist ys; simp [removeClusters]
  | cons r rest ih =>
    intro hist ys
    simp only [List.cons_append, removeClusters]
    by_cases hdiags : c.deleteCluster hist r.id = []
    · simp only [hdiags, ne_eq, not_true_eq_false, if_false, List.append_eq]
      rw [ih (hist ++ [Call.deleteCluster r.id]) ys]
      split <;> simp
    · simp [hdiags]

/-- The first added cluster whose creation fails ends the loop over added
clusters: the calls are those made before it and the failing `createCluster`,
and the diagnostics are those of that call. -/
theorem addClusters_first_failure (h : Helpers) (c : SddcManagerClient) (domainId : String)
    (hist : List Call) (before : List ClusterState) (a : ClusterState)
    (after : List ClusterState) (spec : ClusterSpec)
    (hok : (addClusters h c domainId hist before).result = some [])
    (hconv : h.tryConvertToClusterSpec a = .ok spec)
    (hfail : (c.createCluster (hist ++ (addClusters h c domainId hist before).calls)
      domainId spec).2 ≠ []) :
    addClusters h c domainId hist (before ++ a :: after) =
      ⟨(addClusters h c domainId hist before).calls ++ [Call.createCluster domainId spec],
        some (c.createCluster (hist ++ (addClusters h c domainId hist before).calls)
          domainId spec).2⟩ := by
  rw [addClusters_append, if_pos hok]
  simp only [addClusters, hconv]
  rw [if_pos hfail]

/-- The first added cluster that does not convert ends the loop over added
clusters with the conversion error and without a call for it. -/
theorem addClusters_first_conversion_failure (h : Helpers) (c : SddcManagerClient)
    (domainId : String) (hist : List Call) (before : List ClusterState) (a : ClusterState)
    (after : List ClusterState) (e : Err)
    (hok : (addClusters h c domainId hist before).result = some [])
    (hconv : h.tryConvertToClusterSpec a = .error e) :
    addClusters h c domainId hist (before ++ a :: after) =
      ⟨(addClusters h c domainId hist before).calls, some (fromErr e)⟩ := by
  rw [addClusters_append, if_pos hok]
  simp [addClusters, hconv]

/-- The first removed cluster whose deletion fails ends the loop over removed
clusters: the calls are those made before it and the failing `deleteCluster`,
and the diagnostics are those of that call. -/
theorem removeClusters_first_failure (c : SddcManagerClient) (hist : List Call)
    (before : List ClusterState) (r : ClusterState) (after : List ClusterState)
    (hok : (removeClusters c hist before).result = some [])
    (hfail : c.deleteCluster (hist ++ (removeClusters c hist before).calls) r.id ≠ []) :
    removeClusters c hist (before ++ r :: after) =
      ⟨(removeClusters c hist before).calls ++ [Call.deleteCluster r.id],
        some (c.deleteCluster (hist ++ (removeClusters c hist before).calls) r.id)⟩ := by
  rw [removeClusters_append, if_pos hok]
  simp only [removeClusters]
  rw [if_pos hfail]

/-- The first cluster whose hosts changed and whose update fails ends
`handleClusterUpdateInDomain`: the calls are those made for the positions
before it and the failing `updateCluster`, and the diagnostics are those of
that call. -/
theorem handleClusterUpdateInDomain_first_failure (h : Helpers) (c : SddcManagerClient)
    (hist : List Call) (pn po ns os : List ClusterState) (n o : ClusterState)
    (spec : ClusterUpdateSpec)
    (hpre : po.length = pn.length) (hpost : os.length = ns.length)
    (hok : (handleClusterUpdateInDomain h c hist pn po).result = some [])
    (hid : n.id = o.id) (hhost : o.host ≠ n.host)
    (hspec : h.setExpansionOrContractionSpec o.host n.host = .ok spec)
    (hfail : c.updateCluster (hist ++ (handleClusterUpdateInDomain h c hist pn po).calls)
      n.id spec ≠ []) :
    handleClusterUpdateInDomain h c hist (pn ++ n :: ns) (po ++ o :: os) =
      ⟨(handleClusterUpdateInDomain h c hist pn po).calls ++ [Call.updateCluster n.id spec],
        some (c.updateCluster (hist ++ (handleClusterUpdateInDomain h c hist pn po).calls)
          n.id spec)⟩ := by
  have hneq : n ≠ o := fun heq => hhost (by rw [heq])
  have hguard : handleClusterUpdateInDomain h c hist pn po = updateClusters h c hist pn po := by
    simp [handleClusterUpdateInDomain, hpre]
  rw [hguard] at hok hfail ⊢
  have hlen : ¬ (po ++ o :: os).length ≠ (pn ++ n :: ns).length := by
    simp [hpre, hpost]
  simp only [handleClusterUpdateInDomain]
  rw [if_neg hlen, updateClusters_append h c pn po hist (n :: ns) (o :: os) hpre, if_pos hok]
  simp only [updateClusters]
  rw [if_neg hneq, if_neg (by simpa using hid), if_neg hhost]
  simp only [hspec]
  rw [if_pos hfail]

/-- The first cluster whose hosts changed and whose update spec cannot be built
ends `handleClusterUpdateInDomain` with the construction error and without a
call for it. -/
theorem handleClusterUpdateInDomain_first_spec_failure (h : Helpers) (c : SddcManagerClient)
    (hist : List Call) (pn po ns os : List ClusterState) (n o : ClusterState) (e : Err)
    (hpre : po.length = pn.length) (hpost : os.length = ns.length)
    (hok : (handleClusterUpdateInDomain h c hist pn po).result = some [])
    (hid : n.id = o.id) (hhost : o.host ≠ n.host)
    (hspec : h.setExpansionOrContractionSpec o.host n.host = .error e) :
    handleClusterUpdateInDomain h c hist (pn ++ n :: ns) (po ++ o :: os) =
      ⟨(handleClusterUpdateInDomain h c hist pn po).calls, some (fromErr e)⟩ := by
  have hneq : n ≠ o := fun heq => hhost (by rw [heq])
  have hguard : handleClusterUpdateInDomain h c hist pn po = updateClusters h c hist pn po := by
    simp [handleClusterUpdateInDomain, hpre]
  rw [hguard] at hok ⊢
  have hlen : ¬ (po ++ o :: os).length ≠ (pn ++ n :: ns).length := by
    simp [hpre, hpost]
  simp only [handleClusterUpdateInDomain]
  rw [if_neg hlen, updateClusters_append h c pn po hist (n :: ns) (o :: os) hpre, if_pos hok]
  simp only [updateClusters]
  rw [if_neg hneq, if_neg (by simpa using hid), if_neg hhost]
  simp [hspec]

/-- Counterexample to C10: two clusters each gain a host and the update of
either one fails on its own, yet the diagnostics of the domain update hold the
failure of the first cluster only, and the second cluster is never tried. -/
theorem resourceDomainUpdate_second_failure_unreported :
    (handleClusterUpdateInDomain sampleHelpers failingClusterClient []
        [sampleCluster "cl-1" "c1" ["h1", "h3"]] [sampleCluster "cl-1" "c1" ["h1"]]).result
        = some [⟨Severity.error, Err.remote "cl-1"⟩] ∧
      (handleClusterUpdateInDomain sampleHelpers failingClusterClient []
        [sampleCluster "cl-2" "c2" ["h2", "h4"]] [sampleCluster "cl-2" "c2" ["h2"]]).result
        = some [⟨Severity.error, Err.remote "cl-2"⟩] ∧
      (resourceDomainUpdate sampleHelpers failingClusterClient [] twoExpandData).result
        = some [⟨Severity.error, Err.remote "cl-1"⟩] ∧
      (resourceDomainUpdate sampleHelpers failingClusterClient [] twoExpandData).calls
        = [Call.updateCluster "cl-1" ⟨"h1 -> h1,h3"⟩] ∧
      ¬ ((⟨Severity.error, Err.remote "cl-2"⟩ : Diagnostic) ∈
        [(⟨Severity.error, Err.remote "cl-1"⟩ : Diagnostic)]) := by
  refine ⟨by decide, by decide, by decide, by decide, by decide⟩

/-- When the name block has returned nil and the cluster block does not, the
update ends with the calls of both and the diagnostics of the cluster block. -/
theorem resourceDomainUpdate_failed_step (h : Helpers) (c : SddcManagerClient)
    (hist : List Call) (data : ResourceData) (nameCalls : List Call) (step : Outcome)
    (hname : updateDomainName c hist data = ⟨nameCalls, some []⟩)
    (hblock : updateDomainClusters h c (hist ++ nameCalls) data = step)
    (hfail : step.result ≠ some []) :
    resourceDomainUpdate h c hist data = ⟨nameCalls ++ step.calls, data, step.result⟩ := by
  have hsteps := (resourceDomainUpdate_steps h c hist data).2 (by rw [hname])
  unfold RunsClusterStep at hsteps
  simp only [hname] at hsteps
  subst hblock
  exact hsteps.1 hfail

/-- C10, amended: a domain update whose `cluster` attribute changed stops at the
first member that fails, once the name block has returned nil with calls
`nameCalls`.  The diagnostics returned by `resourceDomainUpdate` are exactly
those of that member: the diagnostics of its failing `updateCluster`,
`createCluster` or `deleteCluster` call, or the error of its spec construction.
The calls are those of the name block, those made for the members before it
(`earlier`, after all creations `created` for a removal) and the failing call;
nothing is called for the members after it, whatever they are, no removal
follows a failed addition, no read is made and the data is unchanged. -/
theorem resourceDomainUpdate_stops_at_first_failure (h : Helpers) (c : SddcManagerClient)
    (hist : List Call) (data : ResourceData) (nameCalls : List Call)
    (hchange : data.hasChangeCluster = true)
    (hname : updateDomainName c hist data = ⟨nameCalls, some []⟩) :
    (∀ pn po ns os n o spec earlier diags,
      data.cluster = pn ++ n :: ns → data.priorCluster = po ++ o :: os →
      po.length = pn.length → os.length = ns.length →
      handleClusterUpdateInDomain h c (hist ++ nameCalls) pn po = ⟨earlier, some []⟩ →
      n.id = o.id → o.host ≠ n.host →
      h.setExpansionOrContractionSpec o.host n.host = .ok spec →
      c.updateCluster (hist ++ nameCalls ++ earlier) n.id spec = diags → diags ≠ [] →
      resourceDomainUpdate h c hist data =
        ⟨nameCalls ++ earlier ++ [Call.updateCluster n.id spec], data, some diags⟩) ∧
    (∀ pn po ns os n o e earlier,
      data.cluster = pn ++ n :: ns → data.priorCluster = po ++ o :: os →
      po.length = pn.length → os.length = ns.length →
      handleClusterUpdateInDomain h c (hist ++ nameCalls) pn po = ⟨earlier, some []⟩ →
      n.id = o.id → o.host ≠ n.host →
      h.setExpansionOrContractionSpec o.host n.host = .error e →
      resourceDomainUpdate h c hist data = ⟨nameCalls ++ earlier, data, some (fromErr e)⟩) ∧
    (∀ before a after spec earlier diags,
      data.priorCluster.length ≠ data.cluster.length →
      (h.calculateAddedRemovedResources data.cluster data.priorCluster).1
        = before ++ a :: after →
      addClusters h c data.id (hist ++ nameCalls) before = ⟨earlier, some []⟩ →
      h.tryConvertToClusterSpec a = .ok spec →
      (c.createCluster (hist ++ nameCalls ++ earlier) data.id spec).2 = diags → diags ≠ [] →
      resourceDomainUpdate h c hist data =
        ⟨nameCalls ++ earlier ++ [Call.createCluster data.id spec], data, some diags⟩) ∧
    (∀ before a after e earlier,
      data.priorCluster.length ≠ data.cluster.length →
      (h.calculateAddedRemovedResources data.cluster data.priorCluster).1
        = before ++ a :: after →
      addClusters h c data.id (hist ++ nameCalls) before = ⟨earlier, some []⟩ →
      h.tryConvertToClusterSpec a = .error e →
      resourceDomainUpdate h c hist data = ⟨nameCalls ++ earlier, data, some (fromErr e)⟩) ∧
    (∀ before r after created earlier diags,
      data.priorCluster.length ≠ data.cluster.length →
      addClusters h c data.id (hist ++ nameCalls)
        (h.calculateAddedRemovedResources data.cluster data.priorCluster).1
        = ⟨created, some []⟩ →
      (h.calculateAddedRemovedResources data.cluster data.priorCluster).2
        = before ++ r :: after →
      removeClusters c (hist ++ nameCalls ++ created) before = ⟨earlier, some []⟩ →
      c.deleteCluster (hist ++ nameCalls ++ created ++ earlier) r.id = diags → diags ≠ [] →
      resourceDomainUpdate h c hist data =
        ⟨nameCalls ++ created ++ earlier ++ [Call.deleteCluster r.id], data, some diags⟩) := by
  have hequal : ∀ hist2, data.priorCluster.length = data.cluster.length →
      updateDomainClusters h c hist2 data =
        handleClusterUpdateInDomain h c hist2 data.cluster data.priorCluster := by
    intro hist2 hlen
    simp [updateDomainClusters, hchange, hlen]
  have hdiffer : ∀ hist2, data.priorCluster.length ≠ data.cluster.length →
      updateDomainClusters h c hist2 data =
        handleClusterAddRemoveToDomain h c hist2 data.id data.cluster data.priorCluster := by
    intro hist2 hlen
    simp [updateDomainClusters, hchange, hlen]
  refine ⟨?_, ?_, ?_, ?_, ?_⟩
  · intro pn po ns os n o spec earlier diags hnew hold hpre hpost hok hid hhost hspec hcall hne
    have hlen : data.priorCluster.length = data.cluster.length := by
      rw [hnew, hold]; simp [hpre, hpost]
    have hstep := handleClusterUpdateInDomain_first_failure h c (hist ++ nameCalls) pn po ns os
      n o spec hpre hpost (by rw [hok]) hid hhost hspec (by rw [hok, hcall]; exact hne)
    rw [hok, hcall, ← hnew, ← hold] at hstep
    have hrun := resourceDomainUpdate_failed_step h c hist data nameCalls _ hname
      ((hequal _ hlen).trans hstep) (by simpa using hne)
    simpa [List.append_assoc] using hrun
  · intro pn po ns os n o e earlier hnew hold hpre hpost hok hid hhost hspec
    have hlen : data.priorCluster.length = data.cluster.length := by
      rw [hnew, hold]; simp [hpre, hpost]
    have hstep := handleClusterUpdateInDomain_first_spec_failure h c (hist ++ nameCalls) pn po
      ns os n o e hpre hpost (by rw [hok]) hid hhost hspec
    rw [hok, ← hnew, ← hold] at hstep
    exact resourceDomainUpdate_failed_step h c hist data nameCalls _ hname
      ((hequal _ hlen).trans hstep) (by simp [fromErr])
  · intro before a after spec earlier diags hlen hadded hok hconv hcall hne
    have hloop := addClusters_first_failure h c data.id (hist ++ nameCalls) before a after spec
      (by rw [hok]) hconv (by rw [hok, hcall]; exact hne)
    rw [hok, hcall, ← hadded] at hloop
    have hstep : handleClusterAddRemoveToDomain h c (hist ++ nameCalls) data.id data.cluster
        data.priorCluster = ⟨earlier ++ [Call.createCluster data.id spec], some diags⟩ := by
      simp only [handleClusterAddRemoveToDomain, hloop]
      rw [if_pos (by simpa using hne)]
    have hrun := resourceDomainUpdate_failed_step h c hist data nameCalls _ hname
      ((hdiffer _ hlen).trans hstep) (by simpa using hne)
    simpa [List.append_assoc] using hrun
  · intro before a after e earlier hlen hadded hok hconv
    have hloop := addClusters_first_conversion_failure h c data.id (hist ++ nameCalls) before a
      after e (by rw [hok]) hconv
    rw [hok, ← hadded] at hloop
    have hstep : handleClusterAddRemoveToDomain h c (hist ++ nameCalls) data.id data.cluster
        data.priorCluster = ⟨earlier, some (fromErr e)⟩ := by
      simp only [handleClusterAddRemoveToDomain, hloop]
      rw [if_pos (by simp [fromErr])]
    exact resourceDomainUpdate_failed_step h c hist data nameCalls _ hname
      ((hdiffer _ hlen).trans hstep) (by simp [fromErr])
  · intro before r after created earlier diags hlen hadd hremoved hok hcall hne
    have hloop := removeClusters_first_failure c (hist ++ nameCalls ++ created) before r after
      (by rw [hok]) (by rw [hok, hcall]; exact hne)
    rw [hok, hcall, ← hremoved] at hloop
    have hstep : handleClusterAddRemoveToDomain h c (hist ++ nameCalls) data.id data.cluster
        data.priorCluster
        = ⟨created ++ (earlier ++ [Call.deleteCluster r.id]), some diags⟩ := by
      simp only [handleClusterAddRemoveToDomain, hadd, hloop]
      simp
    have hrun := resourceDomainUpdate_failed_step h c hist data nameCalls _ hname
      ((hdiffer _ hlen).trans hstep) (by simpa using hne)
    simpa [List.append_assoc] using hrun

/-- Witness of the amended C10: two clusters gain a host and both updates would
fail; the update returns the diagnostics of the first cluster after its one
call. -/
theorem resourceDomainUpdate_stops_at_first_failure_witness :
    resourceDomainUpdate sampleHelpers failingClusterClient [] twoExpandData =
      ⟨[Call.updateCluster "cl-1" ⟨"h1 -> h1,h3"⟩], twoExpandData,
        some [⟨Severity.error, Err.remote "cl-1"⟩]⟩ :=
  (resourceDomainUpdate_stops_at_first_failure sampleHelpers failingClusterClient []
    twoExpandData [] (by decide) (by decide)).1 [] []
    [sampleCluster "cl-2" "c2" ["h2", "h4"]] [sampleCluster "cl-2" "c2" ["h2"]]
    (sampleCluster "cl-1" "c1" ["h1", "h3"]) (sampleCluster "cl-1" "c1" ["h1"])
    ⟨"h1 -> h1,h3"⟩ [] [⟨Severity.error, Err.remote "cl-1"⟩]
    rfl rfl rfl rfl (by decide) rfl (by decide) rfl rfl (by decide)

/-! ## Read: theorems -/

/-- The cluster read-back never changes the `vcenter` block. -/
theorem readAndSetClustersDataToDomainResource_vcenter (refs : List ClusterReference)
    (c : SddcManagerClient) (hist : List Call) (data : ResourceData) :
    (readAndSetClustersDataToDomainResource refs c hist data).data.vcenter = data.vcenter := by
  unfold readAndSetClustersDataToDomainResource
  split
  · rfl
  · split <;> rfl

/-- C11: after a successful `GetDomain`, when the vCenter list of the response
is empty `resourceDomainRead` returns the error that names the resource id,
without a panic, and its only call is `GetDomain`, so the cluster listing is
never fetched; when the response has at least one vCenter, the first entry of
the state's `vcenter` block gets the id and the fqdn of the first vCenter of the
response and keeps its other attributes. -/
theorem resourceDomainRead_vcenters (c : SddcManagerClient) (hist : List Call)
    (data : ResourceData) (domain : Domain) (hget : c.getDomain hist data.id = .ok domain) :
    (domain.vcenters = [] →
      (resourceDomainRead c hist data).result = some (fromErr (Err.noVcenter data.id)) ∧
      (resourceDomainRead c hist data).calls = [Call.getDomain data.id]) ∧
    (∀ vc others, domain.vcenters = vc :: others →
      ∀ vcenterConfig rest, data.vcenter = vcenterConfig :: rest →
        (resourceDomainRead c hist data).data.vcenter =
          { vcenterConfig with id := vc.id, fqdn := vc.fqdn } :: rest) := by
  refine ⟨?_, ?_⟩
  · intro hempty
    simp [resourceDomainRead, hget, hempty]
  · intro vc others hvcs vcenterConfig rest hstate
    simp only [resourceDomainRead, hget, hvcs, hstate]
    rw [if_neg (by simp)]
    split <;> simp [readAndSetClustersDataToDomainResource_vcenter]

/-- Witness of C11: the domain comes back without any vCenter. -/
theorem resourceDomainRead_vcenters_witness :
    (resourceDomainRead noVcenterClient [] expandData).result
        = some (fromErr (Err.noVcenter "domain-1")) ∧
      (resourceDomainRead noVcenterClient [] expandData).calls = [Call.getDomain "domain-1"] :=
  (resourceDomainRead_vcenters noVcenterClient [] expandData { sampleDomain with vcenters := [] }
    rfl).1 rfl

/-! ## Delete without a delete task -/

/-- C16: when the mark-for-deletion phase has succeeded and `DeleteDomain`
succeeds with neither of its two responses, `resourceDomainDelete` raises no
error for the missing task id and does not panic: its last call is a wait,
`mustSucceedOrFatal = true`, on the task id of the mark-for-deletion update,
which was already awaited, and it returns nil diagnostics exactly when that
second wait succeeds, the diagnostics of the wait error otherwise. -/
theorem resourceDomainDelete_without_delete_task (c : SddcManagerClient) (hist : List Call)
    (data : ResourceData) (updateTask : Task) (second : Option Task)
    (hupd : c.updateDomain hist data.id (createDomainUpdateSpec data true)
      = .ok ⟨some updateTask, second⟩)
    (hwait : c.waitForTaskComplete
      (hist ++ [Call.updateDomain data.id (createDomainUpdateSpec data true)])
      updateTask.id false = none)
    (hdel : c.deleteDomain
      (hist ++ [Call.updateDomain data.id (createDomainUpdateSpec data true),
        Call.waitForTaskComplete updateTask.id false]) data.id = .ok ⟨none, none⟩) :
    (resourceDomainDelete c hist data).calls =
        [Call.updateDomain data.id (createDomainUpdateSpec data true),
          Call.waitForTaskComplete updateTask.id false,
          Call.deleteDomain data.id,
          Call.waitForTaskComplete updateTask.id true] ∧
      ((resourceDomainDelete c hist data).result = some [] ↔
        c.waitForTaskComplete
          (hist ++ [Call.updateDomain data.id (createDomainUpdateSpec data true),
            Call.waitForTaskComplete updateTask.id false, Call.deleteDomain data.id])
          updateTask.id true = none) ∧
      (∀ e, c.waitForTaskComplete
          (hist ++ [Call.updateDomain data.id (createDomainUpdateSpec data true),
            Call.waitForTaskComplete updateTask.id false, Call.deleteDomain data.id])
          updateTask.id true = some e →
        (resourceDomainDelete c hist data).result = some (fromErr e)) := by
  simp only [resourceDomainDelete, hupd, hwait, hdel, List.append_assoc, List.singleton_append,
    List.cons_append, List.nil_append]
  cases hlast : c.waitForTaskComplete
      (hist ++ [Call.updateDomain data.id (createDomainUpdateSpec data true),
        Call.waitForTaskComplete updateTask.id false, Call.deleteDomain data.id])
      updateTask.id true with
  | none => simp
  | some e => simp [fromErr]

/-- Witness of C16: the update task is awaited a second time. -/
theorem resourceDomainDelete_without_delete_task_witness :
    (resourceDomainDelete noDeleteTaskClient [] sampleData).calls =
        [Call.updateDomain "" ⟨true, ""⟩, Call.waitForTaskComplete "task-update" false,
          Call.deleteDomain "", Call.waitForTaskComplete "task-update" true] ∧
      (resourceDomainDelete noDeleteTaskClient [] sampleData).result = some [] := by
  have hall := resourceDomainDelete_without_delete_task noDeleteTaskClient [] sampleData
    ⟨"task-update"⟩ (some ⟨"task-update"⟩) rfl rfl rfl
  exact ⟨hall.1, hall.2.1.2 rfl⟩

/-! ## Read-back of the clusters -/

/-- The inner loop of the cluster read-back computes `readBack`. -/
theorem setClusterData_eq_readBack (ids : List String) (allClusters : List Cluster) :
    ∀ domainCluster,
      setClusterData ids domainCluster allClusters = readBack ids allClusters domainCluster := by
  induction allClusters with
  | nil => intro dc; simp [setClusterData, readBack, lastMatch]
  | cons cl others ih =>
    intro dc
    by_cases hid : cl.id ∈ ids
    · by_cases hname : dc.name = cl.name
      · have hstep : setClusterData ids dc (cl :: others)
            = readBack ids others (overwriteObserved dc cl) := by
          simp only [setClusterData]
          rw [if_neg (by simpa using hid), if_pos hname]
          exact ih _
        rw [hstep]
        simp only [readBack, lastMatch, overwriteObserved, List.filter_cons, hid, hname,
          decide_True, Bool.and_self, if_true, List.getLast?_cons]
        cases (others.filter
          (fun cl2 => decide (cl2.id ∈ ids) && decide (cl.name = cl2.name))).getLast? <;> rfl
      · have hstep : setClusterData ids dc (cl :: others) = readBack ids others dc := by
          simp only [setClusterData]
          rw [if_neg (by simpa using hid), if_neg hname]
          exact ih _
        rw [hstep]
        simp [readBack, lastMatch, List.filter_cons, hname]
    · have hstep : setClusterData ids dc (cl :: others) = readBack ids others dc := by
        simp only [setClusterData]
        rw [if_pos (by simpa using hid)]
        exact ih _
      rw [hstep]
      simp [readBack, lastMatch, List.filter_cons, hid]

/-- The keys of `clusterIdsInTheCurrentDomain` are the ids of the references. -/
theorem clusterIdsInTheCurrentDomain_mem (refs : List ClusterReference) :
    ∀ ids, clusterIdsInTheCurrentDomain refs = some ids →
      ∀ id, id ∈ ids ↔ (⟨some id⟩ : ClusterReference) ∈ refs := by
  induction refs with
  | nil =>
    intro ids hids id
    simp only [clusterIdsInTheCurrentDomain, Option.some.injEq] at hids
    subst hids
    simp
  | cons ref others ih =>
    intro ids hids id
    obtain ⟨refId⟩ := ref
    cases refId with
    | none => simp [clusterIdsInTheCurrentDomain] at hids
    | some first =>
      cases hrest : clusterIdsInTheCurrentDomain others with
      | none => simp [clusterIdsInTheCurrentDomain, hrest] at hids
      | some rest =>
        simp only [clusterIdsInTheCurrentDomain, hrest, Option.some.injEq] at hids
        subst hids
        simp [ih rest hrest id]

/-- C15: for a run of `readAndSetClustersDataToDomainResource` that succeeds
(the references all carry an id, giving `ids`, and the listing `allClusters` is
fetched), the result is nil and the data is the prior data with each entry of
the cluster list replaced, in place, by its `readBack`: the list keeps its
length and order and nothing else in the data changes.  `ids` holds exactly the
ids of the domain's references.  An entry keeps its name, hosts and remaining
attributes; its observed fields are those of the last listed cluster whose id is
in `ids` and whose name is the entry's name; an entry without such a cluster is
unchanged; and a listed cluster whose id is not in `ids` can be dropped from the
listing without changing any entry, whatever its name. -/
theorem readAndSetClustersDataToDomainResource_frame (refs : List ClusterReference)
    (c : SddcManagerClient) (hist : List Call) (data : ResourceData) (ids : List String)
    (allClusters : List Cluster)
    (hids : clusterIdsInTheCurrentDomain refs = some ids)
    (hlist : c.getClusters hist = .ok allClusters) :
    (readAndSetClustersDataToDomainResource refs c hist data).result = some none ∧
      (readAndSetClustersDataToDomainResource refs c hist data).data =
        { data with cluster := data.cluster.map (readBack ids allClusters) } ∧
      (readAndSetClustersDataToDomainResource refs c hist data).data.cluster.length
        = data.cluster.length ∧
      (∀ id, id ∈ ids ↔ (⟨some id⟩ : ClusterReference) ∈ refs) ∧
      (∀ dc, (readBack ids allClusters dc).name = dc.name ∧
        (readBack ids allClusters dc).host = dc.host ∧
        (readBack ids allClusters dc).rest = dc.rest) ∧
      (∀ dc clusterObj, lastMatch ids dc.name allClusters = some clusterObj →
        (clusterObj ∈ allClusters ∧ clusterObj.id ∈ ids ∧ clusterObj.name = dc.name) ∧
        readBack ids allClusters dc = overwriteObserved dc clusterObj) ∧
      (∀ dc, (∀ cl ∈ allClusters, cl.id ∈ ids → cl.name ≠ dc.name) →
        readBack ids allClusters dc = dc) ∧
      (∀ extra, ¬ extra.id ∈ ids → ∀ before after dc,
        readBack ids (before ++ extra :: after) dc = readBack ids (before ++ after) dc) := by
  have hrun : readAndSetClustersDataToDomainResource refs c hist data =
      ⟨[Call.getClusters],
        { data with cluster := data.cluster.map (readBack ids allClusters) }, some none⟩ := by
    simp only [readAndSetClustersDataToDomainResource, hids, hlist]
    congr 2
    exact List.map_congr_left (fun dc _ => setClusterData_eq_readBack ids allClusters dc)
  refine ⟨by rw [hrun], by rw [hrun], by rw [hrun]; simp,
    clusterIdsInTheCurrentDomain_mem refs ids hids, ?_, ?_, ?_, ?_⟩
  · intro dc
    simp only [readBack]
    split <;> simp [overwriteObserved]
  · intro dc clusterObj hlast
    refine ⟨?_, by simp [readBack, hlast]⟩
    have hmem := List.mem_of_getLast?_eq_some hlast
    simp only [List.mem_filter, Bool.and_eq_true, decide_eq_true_eq] at hmem
    exact ⟨hmem.1, hmem.2.1, hmem.2.2.symm⟩
  · intro dc hnone
    have hfilter : allClusters.filter
        (fun cl => decide (cl.id ∈ ids) && decide (dc.name = cl.name)) = [] := by
      rw [List.filter_eq_nil_iff]
      intro cl hcl
      simp only [Bool.and_eq_true, decide_eq_true_eq, not_and]
      exact fun hid hname => hnone cl hcl hid hname.symm
    simp [readBack, lastMatch, hfilter]
  · intro extra hextra before after dc
    simp [readBack, lastMatch, List.filter_cons, hextra]

/-- Witness of C15: the only entry is matched by the only listed cluster. -/
theorem readAndSetClustersDataToDomainResource_frame_witness :
    (readAndSetClustersDataToDomainResource sampleDomain.clusters sampleClient []
        sampleData).data.cluster =
      [{ sampleCluster "cl-1" "c1" ["h1", "h2", "h3"] with
        primaryDatastoreName := "ds", primaryDatastoreType := "VSAN", isDefault := true }] := by
  have hall := readAndSetClustersDataToDomainResource_frame sampleDomain.clusters sampleClient []
    sampleData ["cl-1"] [⟨"cl-1", "c1", "ds", "VSAN", true, false⟩] rfl rfl
  rw [hall.2.1]
  decide

/-- Counterexample to C14: two runs with the same cluster references and the
same listing, started from states whose only cluster differs in its host list,
both succeed and leave different cluster lists: the hosts of the prior entry
are carried over. -/
theorem readAndSetClustersDataToDomainResource_keeps_prior_hosts :
    (readAndSetClustersDataToDomainResource sampleDomain.clusters sampleClient []
        sampleData).result = some none ∧
      (readAndSetClustersDataToDomainResource sampleDomain.clusters sampleClient []
        otherHostsData).result = some none ∧
      (readAndSetClustersDataToDomainResource sampleDomain.clusters sampleClient []
        sampleData).data.cluster
        = [{ sampleCluster "cl-1" "c1" ["h1", "h2", "h3"] with
          primaryDatastoreName := "ds", primaryDatastoreType := "VSAN", isDefault := true }] ∧
      (readAndSetClustersDataToDomainResource sampleDomain.clusters sampleClient []
        otherHostsData).data.cluster
        = [{ sampleCluster "cl-1" "c1" ["h9"] with
          primaryDatastoreName := "ds", primaryDatastoreType := "VSAN", isDefault := true }] ∧
      (readAndSetClustersDataToDomainResource sampleDomain.clusters sampleClient []
        sampleData).data.cluster ≠
      (readAndSetClustersDataToDomainResource sampleDomain.clusters sampleClient []
        otherHostsData).data.cluster := by
  refine ⟨by decide, by decide, by decide, by decide, by decide⟩

/-- Entries that agree on name, hosts and remaining attributes and that have a
match in the listing are read back to equal entries. -/
theorem readBack_map_of_same_config (ids : List String) (allClusters : List Cluster)
    (entries1 entries2 : List ClusterState)
    (hsame : List.Forall₂ (fun a b => a.name = b.name ∧ a.host = b.host ∧ a.rest = b.rest)
      entries1 entries2)
    (hmatch : ∀ a ∈ entries1, ∃ cl ∈ allClusters, cl.id ∈ ids ∧ cl.name = a.name) :
    entries1.map (readBack ids allClusters) = entries2.map (readBack ids allClusters) := by
  induction hsame with
  | nil => rfl
  | @cons a b as bs hhead _ ih =>
    have hrest := ih (fun x hx => hmatch x (List.mem_cons_of_mem _ hx))
    obtain ⟨cl, hcl, hid, hname⟩ := hmatch a (List.mem_cons_self _ _)
    have hsome : ∃ m, lastMatch ids a.name allClusters = some m := by
      cases hlast : lastMatch ids a.name allClusters with
      | some m => exact ⟨m, rfl⟩
      | none =>
        simp only [lastMatch, List.getLast?_eq_none_iff, List.filter_eq_nil_iff,
          Bool.and_eq_true, decide_eq_true_eq, not_and] at hlast
        exact absurd hname.symm (hlast cl hcl hid)
    obtain ⟨m, hm⟩ := hsome
    have hhere : readBack ids allClusters a = readBack ids allClusters b := by
      obtain ⟨h1, h2, h3⟩ := hhead
      simp only [readBack, ← h1, hm, overwriteObserved]
      obtain ⟨_, _, _, _, _, _, _, _⟩ := a
      obtain ⟨_, _, _, _, _, _, _, _⟩ := b
      simp_all
    simp only [List.map_cons, hhere, hrest]

/-- C14, amended: the observed fields written by a read come from the remote
reads alone.  Two runs of `readAndSetClustersDataToDomainResource` with the same
cluster references and the same listing, started from cluster lists that agree
position by position on name, hosts and remaining attributes (so differ at most
in the observed fields) and in which every entry's name is borne by a listed
cluster of the domain, leave equal cluster lists. -/
theorem readAndSetClustersDataToDomainResource_observed_from_remote
    (refs : List ClusterReference) (c : SddcManagerClient) (hist : List Call)
    (data1 data2 : ResourceData) (ids : List String) (allClusters : List Cluster)
    (hids : clusterIdsInTheCurrentDomain refs = some ids)
    (hlist : c.getClusters hist = .ok allClusters)
    (hsame : List.Forall₂ (fun a b => a.name = b.name ∧ a.host = b.host ∧ a.rest = b.rest)
      data1.cluster data2.cluster)
    (hmatch : ∀ a ∈ data1.cluster, ∃ cl ∈ allClusters, cl.id ∈ ids ∧ cl.name = a.name) :
    (readAndSetClustersDataToDomainResource refs c hist data1).data.cluster =
      (readAndSetClustersDataToDomainResource refs c hist data2).data.cluster := by
  have hrun : ∀ data, (readAndSetClustersDataToDomainResource refs c hist data).data.cluster
      = data.cluster.map (readBack ids allClusters) := by
    intro data
    simp only [readAndSetClustersDataToDomainResource, hids, hlist]
    exact List.map_congr_left (fun dc _ => setClusterData_eq_readBack ids allClusters dc)
  rw [hrun, hrun]
  exact readBack_map_of_same_config ids allClusters data1.cluster data2.cluster hsame hmatch

/-- Witness of the amended C14: stale observed fields do not survive the read. -/
theorem readAndSetClustersDataToDomainResource_observed_from_remote_witness :
    (readAndSetClustersDataToDomainResource sampleDomain.clusters sampleClient []
        sampleData).data.cluster =
      (readAndSetClustersDataToDomainResource sampleDomain.clusters sampleClient []
        staleData).data.cluster :=
  readAndSetClustersDataToDomainResource_observed_from_remote sampleDomain.clusters sampleClient
    [] sampleData staleData ["cl-1"] [⟨"cl-1", "c1", "ds", "VSAN", true, false⟩] rfl rfl
    (by simp [sampleData, staleData, sampleCluster]) (by decide)

/-! ## Spec construction: theorems -/

/-- When every entry converts, the conversion loop appends the specs in order. -/
theorem convertClusterSpecs_ok (h : Helpers) (entries : List ClusterState) :
    ∀ acc specs,
      List.Forall₂ (fun entry spec => h.tryConvertToClusterSpec entry = .ok spec) entries specs →
      convertClusterSpecs h acc entries = .ok (acc ++ specs) := by
  induction entries with
  | nil =>
    intro acc specs hconv
    cases hconv
    simp [convertClusterSpecs]
  | cons entry others ih =>
    intro acc specs hconv
    cases hconv with
    | @cons _ spec _ specs2 hhead htail =>
      simp only [convertClusterSpecs, hhead]
      rw [ih (acc ++ [spec]) specs2 htail]
      simp

/-- The conversion loop fails with the error of the first entry that does not
convert. -/
theorem convertClusterSpecs_error (h : Helpers) (before : List ClusterState) :
    ∀ acc specs bad after e,
      List.Forall₂ (fun entry spec => h.tryConvertToClusterSpec entry = .ok spec) before specs →
      h.tryConvertToClusterSpec bad = .error e →
      convertClusterSpecs h acc (before ++ bad :: after) = .error e := by
  induction before with
  | nil =>
    intro acc specs bad after e hconv hbad
    simp [convertClusterSpecs, hbad]
  | cons entry others ih =>
    intro acc specs bad after e hconv hbad
    cases hconv with
    | @cons _ spec _ specs2 hhead htail =>
      simp only [List.cons_append, convertClusterSpecs, hhead, List.append_eq]
      exact ih (acc ++ [spec]) specs2 bad after e htail hbad

/-- Counterexample to C12: the desired state has a `vcenter` block and one
cluster; the only cluster does not convert, and neither does the `vcenter`
block.  The construction fails with the error of the vCenter conversion, which
comes first, and not with the error of the first failing cluster conversion. -/
theorem createDomainCreationSpec_vcenter_error_first :
    sampleData.vcenter = [⟨"", "vc.local", []⟩] ∧
      sampleData.cluster = [sampleCluster "" "c1" ["h1", "h2", "h3"]] ∧
      rejectingAllHelpers.tryConvertToClusterSpec (sampleCluster "" "c1" ["h1", "h2", "h3"])
        = .error (Err.remote "invalid cluster") ∧
      createDomainCreationSpec rejectingAllHelpers sampleData
        = .error (Err.remote "invalid vcenter") ∧
      createDomainCreationSpec rejectingAllHelpers sampleData
        ≠ .error (Err.remote "invalid cluster") := by
  have hrun : createDomainCreationSpec rejectingAllHelpers sampleData
      = .error (Err.remote "invalid vcenter") := by
    simp [createDomainCreationSpec, generateVcenterSpecFromResourceData, rejectingAllHelpers,
      sampleData]
  refine ⟨rfl, rfl, rfl, hrun, ?_⟩
  rw [hrun]
  simp

/-- C12, amended: `createDomainCreationSpec` converts the `vcenter` block, then
the `nsx_configuration` block, then the clusters, and fails with the error of
the first conversion that fails.  So a failing vCenter conversion, and after a
converted `vcenter` block a failing nsx conversion, is the error returned,
whatever the cluster list is.  Once both blocks have converted: an empty cluster
list gives the error `no cluster configuration`; for a non-empty list that
`IsEmpty` does not report empty, when every entry converts the `ComputeSpec` of
the result holds exactly the converted specs, one per entry and in the same
order, and when an entry fails after the entries before it converted, the
construction fails with the error of that entry.  In every case an empty
cluster list gives an error and no spec, without a panic. -/
theorem createDomainCreationSpec_clusters (h : Helpers) (data : ResourceData) :
    (∀ entry others e, data.vcenter = entry :: others →
      h.tryConvertToVcenterSpec entry = .error e →
      createDomainCreationSpec h data = .error e) ∧
    (∀ vcenterSpec entry others e,
      generateVcenterSpecFromResourceData h data = .ok vcenterSpec →
      data.nsxConfiguration = entry :: others →
      h.tryConvertToNsxSpec entry = .error e →
      createDomainCreationSpec h data = .error e) ∧
    (∀ vcenterSpec nsxSpec,
      generateVcenterSpecFromResourceData h data = .ok vcenterSpec →
      generateNsxSpecFromResourceData h data = .ok nsxSpec →
      (data.cluster = [] →
        createDomainCreationSpec h data = .error Err.noClusterConfiguration) ∧
      (data.cluster ≠ [] → h.isEmpty data.cluster = false →
        (∀ specs,
          List.Forall₂ (fun entry spec => h.tryConvertToClusterSpec entry = .ok spec)
            data.cluster specs →
          specs.length = data.cluster.length ∧
          createDomainCreationSpec h data =
            .ok ⟨data.name, data.orgName, vcenterSpec, nsxSpec, some ⟨specs⟩⟩) ∧
        (∀ before specs bad after e, data.cluster = before ++ bad :: after →
          List.Forall₂ (fun entry spec => h.tryConvertToClusterSpec entry = .ok spec)
            before specs →
          h.tryConvertToClusterSpec bad = .error e →
          createDomainCreationSpec h data = .error e))) ∧
    (data.cluster = [] →
      generateComputeSpecFromResourceData h data = .error Err.noClusterConfiguration ∧
      ∃ e, createDomainCreationSpec h data = .error e) := by
  have horg : (if data.orgName ≠ "" then data.orgName else "") = data.orgName := by
    by_cases hname : data.orgName = ""
    · simp [hname]
    · simp [hname]
  have hcompute : data.cluster = [] →
      generateComputeSpecFromResourceData h data = .error Err.noClusterConfiguration := by
    intro hempty
    simp [generateComputeSpecFromResourceData, hempty]
  refine ⟨?_, ?_, ?_, ?_⟩
  · intro entry others e hstate hconv
    simp [createDomainCreationSpec, generateVcenterSpecFromResourceData, hstate, hconv]
  · intro v entry others e hv hstate hconv
    simp [createDomainCreationSpec, hv, generateNsxSpecFromResourceData, hstate, hconv]
  · intro v n hv hn
    refine ⟨?_, ?_⟩
    · intro hempty
      simp [createDomainCreationSpec, hv, hn, hcompute hempty]
    · intro hne hnotEmpty
      refine ⟨?_, ?_⟩
      · intro specs hconv
        refine ⟨hconv.length_eq.symm, ?_⟩
        have hloop := convertClusterSpecs_ok h data.cluster [] specs hconv
        simp only [List.nil_append] at hloop
        simp [createDomainCreationSpec, hv, hn, generateComputeSpecFromResourceData, hne,
          hnotEmpty, hloop, horg]
      · intro before specs bad after e hsplit hconv hbad
        have hloop := convertClusterSpecs_error h before [] specs bad after e hconv hbad
        rw [← hsplit] at hloop
        simp [createDomainCreationSpec, hv, hn, generateComputeSpecFromResourceData, hne,
          hnotEmpty, hloop]
  · intro hempty
    refine ⟨hcompute hempty, ?_⟩
    simp only [createDomainCreationSpec, hcompute hempty]
    cases generateVcenterSpecFromResourceData h data with
    | error e => exact ⟨e, rfl⟩
    | ok v =>
      cases generateNsxSpecFromResourceData h data with
      | error e => exact ⟨e, rfl⟩
      | ok n => exact ⟨_, rfl⟩

/-- Witness of the amended C12: every block of the sample state converts and
the `ComputeSpec` holds the one converted cluster. -/
theorem createDomainCreationSpec_clusters_witness :
    createDomainCreationSpec sampleHelpers sampleData
      = .ok ⟨"wld", "org", some ⟨"vc.local"⟩, none, some ⟨[⟨"c1"⟩]⟩⟩ :=
  ((((createDomainCreationSpec_clusters sampleHelpers sampleData).2.2.1
    (some ⟨"vc.local"⟩) none
    (by simp [generateVcenterSpecFromResourceData, sampleHelpers, sampleData])
    (by simp [generateNsxSpecFromResourceData, sampleData])).2
    (by simp [sampleData]) rfl).1 [⟨"c1"⟩]
    (by simp [sampleHelpers, sampleData, sampleCluster])).2

/-- Counterexample to C13: without a `vcenter` block the vCenter step returns no
spec and no error, and `createDomainCreationSpec` returns a spec whose
`VcenterSpec` is unset instead of a construction error. -/
theorem createDomainCreationSpec_without_vcenter :
    noVcenterData.vcenter = [] ∧
      generateVcenterSpecFromResourceData sampleHelpers noVcenterData = .ok none ∧
      createDomainCreationSpec sampleHelpers noVcenterData
        = .ok ⟨"wld", "org", none, none, some ⟨[⟨"c1"⟩]⟩⟩ := by
  refine ⟨rfl, ?_, ?_⟩
  · simp [generateVcenterSpecFromResourceData, noVcenterData]
  · simp [createDomainCreationSpec, generateVcenterSpecFromResourceData,
      generateNsxSpecFromResourceData, generateComputeSpecFromResourceData, convertClusterSpecs,
      sampleHelpers, noVcenterData, sampleData, sampleCluster]

/-- C13, amended: when the `vcenter` block is present `createDomainCreationSpec`
converts its first entry: a failing conversion is the construction error, and a
successful one is the `VcenterSpec` of every spec returned.  When the block is
absent or empty the builder raises no error for it: the vCenter step returns no
spec, the construction succeeds whenever the other two steps do, and every spec
returned has `VcenterSpec` unset, exactly as an absent `nsx_configuration` block
raises no error and leaves `NsxTSpec` unset. -/
theorem createDomainCreationSpec_blocks (h : Helpers) (data : ResourceData) :
    (∀ entry others, data.vcenter = entry :: others →
      (∀ e, h.tryConvertToVcenterSpec entry = .error e →
        createDomainCreationSpec h data = .error e) ∧
      (∀ vcenterSpec, h.tryConvertToVcenterSpec entry = .ok vcenterSpec →
        ∀ spec, createDomainCreationSpec h data = .ok spec →
          spec.vcenterSpec = some vcenterSpec)) ∧
    (data.vcenter = [] →
      generateVcenterSpecFromResourceData h data = .ok none ∧
      (∀ nsxSpec computeSpec,
        generateNsxSpecFromResourceData h data = .ok nsxSpec →
        generateComputeSpecFromResourceData h data = .ok computeSpec →
        createDomainCreationSpec h data =
          .ok ⟨data.name, data.orgName, none, nsxSpec, some computeSpec⟩) ∧
      (∀ spec, createDomainCreationSpec h data = .ok spec → spec.vcenterSpec = none)) ∧
    (data.nsxConfiguration = [] →
      generateNsxSpecFromResourceData h data = .ok none ∧
      (∀ spec, createDomainCreationSpec h data = .ok spec → spec.nsxTSpec = none)) := by
  have horg : (if data.orgName ≠ "" then data.orgName else "") = data.orgName := by
    by_cases hname : data.orgName = ""
    · simp [hname]
    · simp [hname]
  have hfields : ∀ v n spec, generateVcenterSpecFromResourceData h data = .ok v →
      generateNsxSpecFromResourceData h data = .ok n →
      createDomainCreationSpec h data = .ok spec → spec.vcenterSpec = v ∧ spec.nsxTSpec = n := by
    intro v n spec hv hn hspec
    simp only [createDomainCreationSpec, hv, hn] at hspec
    cases hc : generateComputeSpecFromResourceData h data with
    | error e => simp [hc] at hspec
    | ok cs =>
      simp only [hc, Except.ok.injEq] at hspec
      subst hspec
      exact ⟨rfl, rfl⟩
  have hnsx : ∀ v spec, generateVcenterSpecFromResourceData h data = .ok v →
      createDomainCreationSpec h data = .ok spec →
      ∃ n, generateNsxSpecFromResourceData h data = .ok n := by
    intro v spec hv hspec
    cases hn : generateNsxSpecFromResourceData h data with
    | error e => simp [createDomainCreationSpec, hv, hn] at hspec
    | ok n => exact ⟨n, rfl⟩
  have hvc : ∀ spec, createDomainCreationSpec h data = .ok spec →
      ∃ v, generateVcenterSpecFromResourceData h data = .ok v := by
    intro spec hspec
    cases hv : generateVcenterSpecFromResourceData h data with
    | error e => simp [createDomainCreationSpec, hv] at hspec
    | ok v => exact ⟨v, rfl⟩
  refine ⟨?_, ?_, ?_⟩
  · intro entry others hstate
    refine ⟨?_, ?_⟩
    · intro e hconv
      simp [createDomainCreationSpec, generateVcenterSpecFromResourceData, hstate, hconv]
    · intro v hconv spec hspec
      have hv : generateVcenterSpecFromResourceData h data = .ok (some v) := by
        simp [generateVcenterSpecFromResourceData, hstate, hconv]
      obtain ⟨n, hn⟩ := hnsx _ spec hv hspec
      exact (hfields _ n spec hv hn hspec).1
  · intro hempty
    have hv : generateVcenterSpecFromResourceData h data = .ok none := by
      simp [generateVcenterSpecFromResourceData, hempty]
    refine ⟨hv, ?_, ?_⟩
    · intro n cs hn hc
      simp [createDomainCreationSpec, hv, hn, hc, horg]
    · intro spec hspec
      obtain ⟨n, hn⟩ := hnsx _ spec hv hspec
      exact (hfields _ n spec hv hn hspec).1
  · intro hempty
    have hn : generateNsxSpecFromResourceData h data = .ok none := by
      simp [generateNsxSpecFromResourceData, hempty]
    refine ⟨hn, ?_⟩
    intro spec hspec
    obtain ⟨v, hv⟩ := hvc spec hspec
    exact (hfields v _ spec hv hn hspec).2

/-- Witness of the amended C13: a `vcenter` block that does not convert is the
construction error. -/
theorem createDomainCreationSpec_blocks_witness :
    createDomainCreationSpec rejectingVcenterHelpers sampleData
      = .error (Err.remote "invalid vcenter") :=
  ((createDomainCreationSpec_blocks rejectingVcenterHelpers sampleData).1
    ⟨"", "vc.local", []⟩ [] rfl).1 (Err.remote "invalid vcenter") rfl

end Vcf
